import Mathlib

set_option maxHeartbeats 1000000
set_option maxRecDepth 8000

/-!
Shallow embedding of the core of the out-of-rust-world engine (an
Another World / Out of This World virtual machine reimplementation in
Rust), together with proofs about the embedded code.

Conventions used throughout:
* Machine integers are modelled as `Nat` (unsigned) or `Int` (signed)
  with explicit wrap-around (`% 2^w`) where the Rust code can wrap in
  release mode.
* Rust panics (out-of-bounds indexing, failed asserts, arithmetic that
  would abort) are modelled by `Option`: `none` is a panic.
* Byte buffers are `List Nat`, one `Nat` per byte.
-/

/-- Bytes per framebuffer: 320 * 200. -/
def FB_SIZE : Nat := 64000

/-- Screen width in pixels. -/
def SCR_W : Nat := 320

/-- Screen height in pixels. -/
def SCR_H : Nat := 200

/-- Wrapping subtraction on 64-bit unsigned integers (Rust `usize::wrapping_sub`,
and plain `-` in release mode). -/
def wsub64 (a b : Nat) : Nat :=
  (a % 18446744073709551616 + (18446744073709551616 - b % 18446744073709551616)) %
    18446744073709551616

/-- Wrapping addition on 64-bit unsigned integers (release-mode `+` on `usize`). -/
def wadd64 (a b : Nat) : Nat := (a + b) % 18446744073709551616

/-- Wrapping addition on 32-bit unsigned integers (`u32::wrapping_add`). -/
def wadd32 (a b : Nat) : Nat := (a + b) % 4294967296

/-- Reduce an integer into the `i16` value range following two's complement
wrap-around (release-mode `i16` arithmetic). -/
def wrapI16 (x : Int) : Int := (x + 32768) % 65536 - 32768

/-- Reinterpret an integer as an unsigned 16-bit value (Rust `as u16`). -/
def toU16 (x : Int) : Nat := (x % 65536).toNat

/-- Reinterpret a nonnegative 16-bit pattern as an `i16` (Rust `as i16`). -/
def toI16 (n : Nat) : Int :=
  if n % 65536 < 32768 then (n % 65536 : Int) else (n % 65536 : Int) - 65536

/-- Reinterpret an `i16`/`i32` value as a `u32` bit pattern (Rust `as u32`). -/
def toU32 (x : Int) : Nat := (x % 4294967296).toNat

/-- Computable `std::cmp::min` on integers. -/
def imin (a b : Int) : Int := if a ≤ b then a else b

/-- Computable `std::cmp::max` on integers. -/
def imax (a b : Int) : Int := if b ≤ a then a else b

/-- Computable `std::cmp::min` on naturals. -/
def nmin (a b : Nat) : Nat := if a ≤ b then a else b

/-- Read a big-endian `u32` starting at byte offset `pos` of `buf`; `none` when
fewer than four bytes are available (Rust would panic slicing). -/
def readU32BE (buf : List Nat) (pos : Nat) : Option Nat :=
  match buf[pos]?, buf[pos+1]?, buf[pos+2]?, buf[pos+3]? with
  | some b0, some b1, some b2, some b3 =>
      some (b0 * 16777216 + b1 * 65536 + b2 * 256 + b3)
  | _, _, _, _ => none

/-! ## Bit unpacker (src/bytekiller.rs) -/

/-- Unpacker context, mirroring `struct Ctx` of bytekiller.rs: the in-place
buffer, destination and source cursors, remaining output length, running crc
and the current 32-bit bit buffer. -/
structure Ctx where
  buf : List Nat
  dst_pos : Nat
  src_pos : Nat
  len : Nat
  crc : Nat
  bits : Nat
deriving Repr, DecidableEq

/-- Mirror of `Ctx::adjust_len`: consume up to `count` from the remaining
length, returning the number of bytes the caller will copy. -/
def Ctx.adjust_len (c : Ctx) (count : Nat) : Nat × Ctx :=
  if count ≤ c.len then
    (count, { c with len := c.len - count })
  else
    (count - c.len, { c with len := 0 })

/-- Mirror of `next_bit`: pop the low bit of the bit buffer, refilling (and
updating the crc) from the source cursor when the buffer runs out. In the
refill branch the originally shifted-out carry is discarded and replaced by
the low bit of the freshly read word, exactly as in the source. -/
def next_bit (c : Ctx) : Option (Bool × Ctx) :=
  if c.bits / 2 = 0 then
    match readU32BE c.buf c.src_pos with
    | none => none
    | some w =>
        some (decide (w % 2 = 1),
          { c with
            bits := 2147483648 + w / 2
            src_pos := wsub64 c.src_pos 4
            crc := c.crc ^^^ w })
  else
    some (decide (c.bits % 2 = 1), { c with bits := c.bits / 2 })

/-- Mirror of `rdd1bits`: read `count` bits most-significant-first. -/
def rdd1bits (count : Nat) (c : Ctx) : Option (Nat × Ctx) :=
  match count with
  | 0 => some (0, c)
  | count + 1 =>
      match next_bit c with
      | none => none
      | some (b, c) =>
          match rdd1bits count c with
          | none => none
          | some (out, c) => some (out + (if b then 1 else 0) * 2 ^ count, c)

/-- Helper for `getd3chr`: write `count` literal bytes downward from `dst_pos`,
reading eight bits per byte. -/
def getd3chrWrite (count : Nat) (i : Nat) (c : Ctx) : Option Ctx :=
  match count with
  | 0 => some c
  | count + 1 =>
      match rdd1bits 8 c with
      | none => none
      | some (byte, c) =>
          if wsub64 c.dst_pos i < c.buf.length then
            getd3chrWrite count (i + 1) { c with buf := c.buf.set (wsub64 c.dst_pos i) byte }
          else
            none

/-- Mirror of `getd3chr`: a literal run of `rdd1bits bits_count + input_len + 1`
bytes (clamped by `adjust_len`), written downward. -/
def getd3chr (bits_count input_len : Nat) (c : Ctx) : Option Ctx :=
  match rdd1bits bits_count c with
  | none => none
  | some (n, c) =>
      match c.adjust_len (n + input_len + 1) with
      | (count, c) =>
          match getd3chrWrite count 0 c with
          | none => none
          | some c => some { c with dst_pos := wsub64 c.dst_pos count }

/-- The `input_pos` computation of `copyd3bytes`: `output_pos + offset` for a
nonnegative offset, `output_pos - |offset|` otherwise (the negative branch is
dead for offsets built from at most 12 bits, as in the source). -/
def copySrcPos (offset : Int) (dst_pos i : Nat) : Nat :=
  if 0 ≤ offset then wadd64 (wsub64 dst_pos i) offset.toNat
  else wsub64 (wsub64 dst_pos i) (-offset).toNat

/-- Helper for `copyd3bytes`: copy `count` bytes downward from `dst_pos`, each
read from `dst_pos - i + offset`. -/
def copyd3bytesWrite (offset : Int) (count : Nat) (i : Nat) (c : Ctx) : Option Ctx :=
  match count with
  | 0 => some c
  | count + 1 =>
      match c.buf[copySrcPos offset c.dst_pos i]? with
      | none => none
      | some byte =>
          if wsub64 c.dst_pos i < c.buf.length then
            copyd3bytesWrite offset count (i + 1)
              { c with buf := c.buf.set (wsub64 c.dst_pos i) byte }
          else
            none

/-- Mirror of `copyd3bytes`: a back-reference copy of `count0` bytes (clamped by
`adjust_len`) with a `bits_count`-bit offset. -/
def copyd3bytes (bits_count count0 : Nat) (c : Ctx) : Option Ctx :=
  match c.adjust_len count0 with
  | (count, c) =>
      match rdd1bits bits_count c with
      | none => none
      | some (off, c) =>
          match copyd3bytesWrite (Int.ofNat off) count 0 c with
          | none => none
          | some c => some { c with dst_pos := wsub64 c.dst_pos count }

/-- One iteration of the `unpack` main loop: the two-level prefix-bit dispatch
of bytekiller.rs lines 50-68 (`if !next_bit` branches written as matches on
the fetched bit). -/
def unpackStep (c : Ctx) : Option Ctx :=
  match next_bit c with
  | none => none
  | some (false, c) =>
      match next_bit c with
      | none => none
      | some (false, c) => getd3chr 3 0 c
      | some (true, c) => copyd3bytes 8 2 c
  | some (true, c) =>
      match rdd1bits 2 c with
      | none => none
      | some (code, c) =>
          match code with
          | 0 => copyd3bytes 9 3 c
          | 1 => copyd3bytes 10 4 c
          | 2 =>
              match rdd1bits 8 c with
              | none => none
              | some (n, c) => copyd3bytes 12 (n + 1) c
          | _ => getd3chr 8 8 c

/-- Outcome of running `unpack`: normal success carrying the final context,
a Rust panic (out-of-bounds access), the "output buffer too small" assert, the
final "bytekiller failure" assert (crc mismatch), or fuel exhaustion (which
`unpack_no_fuel_out` proves unreachable). -/
inductive UnpackResult where
  | ok (c : Ctx)
  | panicked
  | badLen
  | corrupt
  | fuelOut
deriving Repr, DecidableEq

/-- The `while ctx.len > 0` loop of `unpack`, with fuel, followed by the final
`assert!(ctx.len == 0 && ctx.crc == 0)`. -/
def unpackLoop (fuel : Nat) (c : Ctx) : UnpackResult :=
  match fuel with
  | 0 => UnpackResult.fuelOut
  | fuel + 1 =>
      if c.len = 0 then
        if c.crc = 0 then UnpackResult.ok c else UnpackResult.corrupt
      else
        match unpackStep c with
        | none => UnpackResult.panicked
        | some c => unpackLoop fuel c

/-- Mirror of `pub fn unpack(buf, packed_len)`: parse the trailer (unpacked
length, crc word, initial bit buffer stepping the source cursor down by 4
after each read), then run the decode loop with fuel `unpacked_len + 1`. -/
def unpack (buf : List Nat) (packed_len : Nat) : UnpackResult :=
  match readU32BE buf (wsub64 packed_len 4) with
  | none => UnpackResult.panicked
  | some len =>
      if len ≤ buf.length then
        match readU32BE buf (wsub64 (wsub64 packed_len 4) 4) with
        | none => UnpackResult.panicked
        | some crc =>
            match readU32BE buf (wsub64 (wsub64 (wsub64 packed_len 4) 4) 4) with
            | none => UnpackResult.panicked
            | some bits =>
                unpackLoop (len + 1)
                  { buf := buf, dst_pos := wsub64 len 1,
                    src_pos := wsub64 (wsub64 (wsub64 (wsub64 packed_len 4) 4) 4) 4,
                    len := len, crc := crc ^^^ bits, bits := bits }
      else
        UnpackResult.badLen

/-- A well-formed packed stream: trailer declares 1 output byte, the initial
bit buffer holds a two-zero prefix, a 3-bit length of 0 and the literal 0xAB,
and the crc word equals the bit word so the running crc cancels to zero. -/
def wBuf : List Nat := [0, 0, 0, 0, 0, 0, 0x3A, 0xA0, 0, 0, 0x3A, 0xA0, 0, 0, 0, 1]

/-- The final unpacker context produced by `unpack wBuf 16`. -/
def wCtx : Ctx :=
  { buf := [0xAB, 0, 0, 0, 0, 0, 0x3A, 0xA0, 0, 0, 0x3A, 0xA0, 0, 0, 0, 1],
    dst_pos := 18446744073709551615, src_pos := 0, len := 0, crc := 0, bits := 1 }

/-- A packed stream whose trailer declares 2 output bytes while its single
literal run requests 3 bytes: the run length exceeds the remaining output.
Bytes 0-1 are the output area, pre-filled with 0x55 0x66. -/
def bufC1 : List Nat := [0x55, 0x66, 0, 0, 0x3A, 0xA8, 0, 0, 0x3A, 0xA8, 0, 0, 0, 2]

/-- The final unpacker context produced by `unpack bufC1 14`: only one byte
(buf[1]) was written; buf[0] still holds its original filler 0x55. -/
def ctxC1 : Ctx :=
  { buf := [0x55, 0xAB, 0, 0, 0x3A, 0xA8, 0, 0, 0x3A, 0xA8, 0, 0, 0, 2],
    dst_pos := 0, src_pos := 18446744073709551614, len := 0, crc := 0, bits := 1 }

/-! ## Software renderer (src/video/soft.rs) -/

/-- An RGB palette entry. -/
structure RgbColor where
  r : Nat
  g : Nat
  b : Nat
deriving Repr, DecidableEq

/-- Mirror of `RgbColor::as_rgb565`. -/
def RgbColor.as_rgb565 (c : RgbColor) : Nat :=
  ((c.r &&& 0xF8) <<< 8) ||| ((c.g &&& 0xFC) <<< 3) ||| (c.b >>> 3)

/-- Renderer state: four indexed framebuffers (page index, byte offset below
`FB_SIZE`) and the 16-entry palette, mirroring `soft::State`. -/
structure SoftState where
  fb : Nat → Nat → Nat
  pal : List RgbColor

/-- Mirror of `soft::State::new`: all-zero framebuffers, default palette. -/
def SoftState.new : SoftState :=
  { fb := fun _ _ => 0, pal := List.replicate 16 { r := 0, g := 0, b := 0 } }

/-- Mirror of `clear_fb`: overwrite all `FB_SIZE` bytes of one page. -/
def clear_fb (s : SoftState) (fb color : Nat) : SoftState :=
  { s with fb := fun p i => if p = fb ∧ i < FB_SIZE then color else s.fb p i }

/-- The byte count chosen by `copy_fb` from the vertical-scroll value. -/
def copyFbCount (v_scroll : Int) : Nat :=
  if -199 ≤ v_scroll ∧ v_scroll ≤ 199 then
    if v_scroll < 0 then ((200 + v_scroll) * 320).toNat
    else if 0 < v_scroll then ((200 - v_scroll) * 320).toNat
    else FB_SIZE
  else 0

/-- Mirror of `copy_fb`. The source computes `src.add(...)` / `dst.add(...)`
for a nonzero scroll but never binds the results, so the actual
`copy_nonoverlapping(src, dst, count)` always copies from offset 0 of the
source page to offset 0 of the destination page; only `count` depends on the
scroll. `assert_ne!(dst_fb, src_fb)` is the `none` case. -/
def copy_fb (s : SoftState) (dst_fb src_fb : Nat) (v_scroll : Int) : Option SoftState :=
  if dst_fb = src_fb then none
  else
    some { s with fb := fun p i =>
      if p = dst_fb ∧ i < copyFbCount v_scroll then s.fb src_fb i else s.fb p i }

/-- Mirror of `grab`, with the `(y * SCR_W + x)` computation wrapping at
`u16` width; `none` when the wrapped offset indexes past the framebuffer. -/
def grabPx (s : SoftState) (fb x y : Nat) : Option Nat :=
  if (y * SCR_W + x) % 65536 < FB_SIZE then some (s.fb fb ((y * SCR_W + x) % 65536)) else none

/-- Mirror of `out`: bounds-asserted single-pixel store. -/
def outPx (s : SoftState) (fb x y color : Nat) : Option SoftState :=
  if x < SCR_W ∧ y < SCR_H then
    some { s with fb := fun p i => if p = fb ∧ i = y * SCR_W + x then color else s.fb p i }
  else
    none

/-- Mirror of `draw_point` with its alpha (`0x10`) and page-copy (`0x11`)
color translations. -/
def draw_point (s : SoftState) (fb x y color : Nat) : Option SoftState :=
  match (if color = 0x10 then (grabPx s fb x y).map (fun c => c ||| 8)
         else if color = 0x11 then grabPx s 0 x y
         else some color) with
  | none => none
  | some c => outPx s fb x y c

/-- Mirror of `draw_h_line_alpha`: OR bit 3 into `w` pixels from `offset`. -/
def drawHLineAlpha (s : SoftState) (fb offset w : Nat) : SoftState :=
  { s with fb := fun p i =>
      if p = fb ∧ offset ≤ i ∧ i < offset + w then s.fb p i ||| 8 else s.fb p i }

/-- Mirror of `draw_h_line_page`: copy pixels from page 0 (no-op on page 0). -/
def drawHLinePage (s : SoftState) (fb offset w : Nat) : SoftState :=
  if fb = 0 then s
  else
    { s with fb := fun p i =>
        if p = fb ∧ offset ≤ i ∧ i < offset + w then s.fb 0 i else s.fb p i }

/-- Mirror of `draw_h_line_color`: store the color byte, unmasked, into `w`
pixels from `offset`. -/
def drawHLineColor (s : SoftState) (fb offset w color : Nat) : SoftState :=
  { s with fb := fun p i =>
      if p = fb ∧ offset ≤ i ∧ i < offset + w then color else s.fb p i }

/-- The per-color horizontal-line writer selection of `draw_polygon`
(`COL_ALPHA = 0x10`, `COL_PAGE = 0x11`, otherwise solid). -/
def drawHLineSel (color : Nat) (s : SoftState) (fb offset w : Nat) : SoftState :=
  if color = 0x10 then drawHLineAlpha s fb offset w
  else if color = 0x11 then drawHLinePage s fb offset w
  else drawHLineColor s fb offset w color

/-- A polygon vertex (`i16` coordinates, mirroring `Vertex`). -/
structure Vertex where
  x : Int
  y : Int
deriving Repr, DecidableEq

/-- Mirror of `calc_step`: the `u16` height of an edge and its 16.16
fixed-point x step (`i32` truncating division, reinterpreted as `u32`). -/
def calcStep (v1 v2 : Vertex) : Nat × Nat :=
  (toU32 (Int.tdiv (wrapI16 (v2.x - v1.x) * 65536)
      (Int.ofNat (if toU16 (v2.y - v1.y) = 0 then 1 else toU16 (v2.y - v1.y)))),
    toU16 (v2.y - v1.y))

/-- The scanline body of `draw_polygon` run when `h_line_y >= 0`: extract the
two edge x positions from the 16.16 counters, clip against the screen, and
invoke the selected horizontal-line writer. -/
def drawSpan (color fb : Nat) (s : SoftState) (cpt1 cpt2 : Nat) (hy : Int) : SoftState :=
  if toI16 (cpt1 / 65536) < 320 ∧ 0 ≤ toI16 (cpt2 / 65536) then
    drawHLineSel color s fb
      (hy * 320 +
        imin (imax (toI16 (cpt1 / 65536)) 0) (imin (toI16 (cpt2 / 65536)) 319)).toNat
      ((imax (imax (toI16 (cpt1 / 65536)) 0) (imin (toI16 (cpt2 / 65536)) 319) -
        imin (imax (toI16 (cpt1 / 65536)) 0) (imin (toI16 (cpt2 / 65536)) 319)) + 1).toNat
  else s

/-- The inner `while h > 0` loop of `draw_polygon`: draw up to `h` scanlines,
stepping both 16.16 edge counters, and report whether the `h_line_y >= SCR_H`
break fired. -/
def stripLoop (color fb : Nat) (step1 step2 : Nat) (h : Nat) (s : SoftState)
    (cpt1 cpt2 : Nat) (hy : Int) : SoftState × Nat × Nat × Int × Bool :=
  match h with
  | 0 => (s, cpt1, cpt2, hy, false)
  | h + 1 =>
      match (if 0 ≤ hy then drawSpan color fb s cpt1 cpt2 hy else s) with
      | s =>
          if hy + 1 ≥ 200 then (s, wadd32 cpt1 step1, wadd32 cpt2 step2, hy + 1, true)
          else stripLoop color fb step1 step2 h s (wadd32 cpt1 step1) (wadd32 cpt2 step2) (hy + 1)

/-- The outer `'top: while count > 2` loop of `draw_polygon`, walking vertex
pairs from both ends of the list. `count` drops by 2 per iteration, so the
structural fuel passed by `draw_polygon` (the vertex count itself) can never
run out; the fuel-exhaustion `none` is unreachable. -/
def polyLoop (color fb : Nat) (vs : List Vertex) (fuel : Nat) (s : SoftState) (i j : Nat)
    (cpt1 cpt2 : Nat) (hy : Int) (count : Nat) : Option SoftState :=
  match fuel with
  | 0 => none
  | fuel + 1 =>
      if 2 < count then
        match vs[j + 1]?, vs[j]?, vs[i - 1]?, vs[i]? with
        | some e1a, some e1b, some e2a, some e2b =>
            if (calcStep e2a e2b).2 = 0 then
              polyLoop color fb vs fuel s (i + 1) (j - 1)
                (wadd32 (cpt1 / 65536 * 65536 + 0x7FFF) (calcStep e1a e1b).1)
                (wadd32 (cpt2 / 65536 * 65536 + 0x8000) (calcStep e2a e2b).1)
                hy (count - 2)
            else
              match stripLoop color fb (calcStep e1a e1b).1 (calcStep e2a e2b).1
                  ((calcStep e2a e2b).2) s
                  (cpt1 / 65536 * 65536 + 0x7FFF) (cpt2 / 65536 * 65536 + 0x8000) hy with
              | (s, _, _, _, true) => some s
              | (s, cpt1, cpt2, hy, false) =>
                  polyLoop color fb vs fuel s (i + 1) (j - 1) cpt1 cpt2 hy (count - 2)
        | _, _, _, _ => none
      else some s

/-- Mirror of `draw_polygon`: quad-strip rasterization of the vertex list of a
`QuadStrip` into page `fb`. -/
def draw_polygon (s : SoftState) (fb : Nat) (vs : List Vertex) (color : Nat) :
    Option SoftState :=
  if vs.length ≤ 2 then some s
  else
    match vs[0]?, vs[vs.length - 1]? with
    | some v0, some vlast =>
        polyLoop color fb vs vs.length s 1 (vs.length - 2)
          (toU32 vlast.x * 65536 % 4294967296)
          (toU32 v0.x * 65536 % 4294967296)
          (imin v0.y vlast.y) vs.length
    | _, _ => none

/-- The recursive worker of `read_pixels`: translate each framebuffer byte of
the given offsets through the 16-entry palette; `none` models the
out-of-bounds palette index panic. -/
def readPixelsGo (s : SoftState) (fb : Nat) (idxs : List Nat) : Option (List Nat) :=
  match idxs with
  | [] => some []
  | i :: rest =>
      match s.pal[s.fb fb i]? with
      | none => none
      | some c =>
          match readPixelsGo s fb rest with
          | none => none
          | some l => some (c.as_rgb565 :: l)

/-- Mirror of `State::read_pixels`: RGB565 readback of a whole page. -/
def read_pixels (s : SoftState) (fb : Nat) : Option (List Nat) :=
  readPixelsGo s fb (List.range FB_SIZE)

/-- Count the pixels of one framebuffer row holding a given color. -/
def countRow (s : SoftState) (page color y : Nat) : Nat :=
  (List.range SCR_W).countP (fun x => s.fb page (y * SCR_W + x) == color)

/-- Count the pixels of one page holding a given color: all offsets
`y * 320 + x` with `y < 200`, `x < 320`, i.e. the whole 64000-byte page. -/
def countPixels (s : SoftState) (page color : Nat) : Nat :=
  ((List.range SCR_H).map (countRow s page color)).sum

/-- All-zero renderer state (fresh `State::new`). -/
def zeroState : SoftState := SoftState.new

/-- The quad of scenario 4 with the vertex order written in the claim. -/
def claimQS : List Vertex :=
  [{ x := 10, y := 10 }, { x := 50, y := 10 }, { x := 50, y := 30 }, { x := 10, y := 30 }]

/-- The same quad in the order the quad-strip rasterizer pairs edges
(down the right side from both ends of the list). -/
def stripQS : List Vertex :=
  [{ x := 50, y := 10 }, { x := 50, y := 30 }, { x := 10, y := 30 }, { x := 10, y := 10 }]

/-- Successive solid horizontal spans `[hy*320+10, hy*320+51)` on page 0, one
per row starting at `hy`: the shape `draw_polygon` produces for the vertical
edge pair of `stripQS` (proved below, not assumed). -/
def paintRows (color : Nat) (s : SoftState) (hy : Int) (h : Nat) : SoftState :=
  match h with
  | 0 => s
  | h + 1 => paintRows color (drawHLineColor s 0 (hy * 320 + 10).toNat 41 color) (hy + 1) h

/-- The rectangle indicator framebuffer: color `c` on page 0 exactly at rows
10-29, columns 10-50, zero elsewhere. -/
def rectState (c : Nat) : SoftState :=
  { fb := fun p i =>
      if p = 0 ∧ 10 ≤ i / 320 ∧ i / 320 < 30 ∧ 10 ≤ i % 320 ∧ i % 320 < 51 then c else 0,
    pal := List.replicate 16 { r := 0, g := 0, b := 0 } }

/-! ## Video context (src/video/mod.rs) -/

/-- Mirror of `VideoContext`: renderer state, the three-slot page-translation
table `fb_xlat` (work, front, back), the shape data counter and flags. -/
structure VideoContext where
  rndr : SoftState
  xlat0 : Nat
  xlat1 : Nat
  xlat2 : Nat
  dc : Nat
  use_seg2 : Bool
  use_ega_pal : Bool
  current_pal_num : Option Nat
  needs_pal_fixup : Bool

/-- Mirror of `VideoContext::new`: `fb_xlat = [2, 2, 1]`, fresh renderer. -/
def VideoContext.new : VideoContext :=
  { rndr := SoftState.new, xlat0 := 2, xlat1 := 2, xlat2 := 1, dc := 0,
    use_seg2 := false, use_ega_pal := false, current_pal_num := none,
    needs_pal_fixup := true }

/-- Mirror of `translate_page`: `0..=3` map to themselves, `0xFE` to the front
slot, `0xFF` to the back slot, anything else is logged and maps to 0. -/
def translate_page (v : VideoContext) (n : Nat) : Nat :=
  if n ≤ 3 then n
  else if n = 0xFE then v.xlat1
  else if n = 0xFF then v.xlat2
  else 0

/-- Mirror of `select_page`: the work slot becomes `translate_page n`. -/
def select_page (v : VideoContext) (n : Nat) : VideoContext :=
  { v with xlat0 := translate_page v n }

/-- Mirror of `fill_page`. -/
def fill_page (v : VideoContext) (n color : Nat) : VideoContext :=
  { v with rndr := clear_fb v.rndr (translate_page v n) color }

/-- Mirror of `copy_page`: sources `>= 0xFE` and sources without bit 7 copy
whole pages; a source with bit 7 set selects the scrolled copy, a no-op when
the pages coincide or the scroll exceeds 199. -/
def copy_page (v : VideoContext) (src dst : Nat) (v_scroll : Int) : Option VideoContext :=
  if 0xFE ≤ src then
    (copy_fb v.rndr (translate_page v dst) (translate_page v src) 0).map
      (fun r => { v with rndr := r })
  else if src &&& 0x80 = 0 then
    (copy_fb v.rndr (translate_page v dst) (translate_page v (src &&& 0xBF)) 0).map
      (fun r => { v with rndr := r })
  else
    if translate_page v (src &&& 3) ≠ translate_page v dst ∧
        -199 ≤ v_scroll ∧ v_scroll ≤ 199 then
      (copy_fb v.rndr (translate_page v dst) (translate_page v (src &&& 3)) v_scroll).map
        (fun r => { v with rndr := r })
    else
      some v

/-- Mirror of `swap_pages`: `0xFE` does nothing, `0xFF` swaps the front and
back slots, anything else retargets the front slot; the second component is
the returned `fb_xlat[1]` read back after the update. -/
def swap_pages (v : VideoContext) (new_front_fb : Nat) : VideoContext × Nat :=
  if new_front_fb ≠ 0xFE then
    if new_front_fb = 0xFF then
      ({ v with xlat1 := v.xlat2, xlat2 := v.xlat1 }, v.xlat2)
    else
      ({ v with xlat1 := translate_page v new_front_fb }, translate_page v new_front_fb)
  else
    (v, v.xlat1)

/-- Fixture for the scrolled-copy claim: framebuffer 0 filled with color 7,
everything else zero, fresh translation table `[2, 2, 1]`. -/
def cx3 : VideoContext :=
  { VideoContext.new with
    rndr := { fb := fun p _ => if p = 0 then 7 else 0,
              pal := List.replicate 16 { r := 0, g := 0, b := 0 } } }

/-! ## Resource pager (src/mem.rs) -/

/-- Entry status constants of mem.rs. -/
def STATUS_EMPTY : Nat := 0

/-- Status of an entry whose payload is resident in the arena. -/
def STATUS_READY : Nat := 1

/-- Status of an entry queued for the priority loader. -/
def STATUS_PENDING : Nat := 2

/-- Mirror of `struct Entry` of mem.rs. -/
structure MemEntry where
  status : Nat
  kind : Nat
  address : Nat
  rank_num : Nat
  bank_num : Nat
  bank_pos : Nat
  packed_size : Nat
  unpacked_size : Nat
deriving Repr, DecidableEq

/-- Mirror of `struct Memory`: the entry list, the 1 MiB arena, the two
watermarks and the four per-part segment offsets. -/
structure Memory where
  list : List MemEntry
  data : List Nat
  data_bak : Nat
  data_cur : Nat
  seg_code : Nat
  seg_video_pal : Nat
  seg_video1 : Nat
  seg_video2 : Nat

/-- Mirror of `invalidate_res`: rewind `data_cur` to `data_bak` and reset the
status of every entry with `kind <= 2 || kind > 6` to Empty; entries with
kinds 3..=6 are left untouched. -/
def invalidate_res (m : Memory) : Memory :=
  { m with
    data_cur := m.data_bak,
    list := m.list.map (fun e =>
      if e.kind ≤ 2 ∨ 6 < e.kind then { e with status := STATUS_EMPTY } else e) }

/-- A Ready bitmap entry (kind 2). -/
def entryBitmap : MemEntry :=
  { status := 1, kind := 2, address := 0, rank_num := 0, bank_num := 1,
    bank_pos := 0, packed_size := 8, unpacked_size := 8 }

/-- A Ready bytecode entry (kind 4). -/
def entryCode : MemEntry :=
  { status := 1, kind := 4, address := 8, rank_num := 0, bank_num := 1,
    bank_pos := 8, packed_size := 4, unpacked_size := 4 }

/-- Two-entry memory used as the C6 witness: a Ready bitmap (kind 2) and a
Ready bytecode segment (kind 4). -/
def memC6 : Memory :=
  { list := [entryBitmap, entryCode],
    data := [], data_bak := 3, data_cur := 12,
    seg_code := 8, seg_video_pal := 0, seg_video1 := 0, seg_video2 := 0 }

/-! ## Audio engine (src/sfx.rs) -/

/-- Host mixing rate in Hz. -/
def HOST_RATE : Nat := 44100

/-- Game-native sample rate in Hz. -/
def GAME_RATE : Nat := 11025

/-- Read a big-endian `u16` starting at byte offset `pos` of `buf`. -/
def readU16BE (buf : List Nat) (pos : Nat) : Option Nat :=
  match buf[pos]?, buf[pos+1]? with
  | some b0, some b1 => some (b0 * 256 + b1)
  | _, _ => none

/-- Reinterpret a byte as an `i8` (Rust `as i8`). -/
def toI8 (n : Nat) : Int :=
  if n % 256 < 128 then (n % 256 : Int) else (n % 256 : Int) - 256

/-- Truncate an `i32` value to `i16` (Rust `as i16` on an `i32`). -/
def i32AsI16 (x : Int) : Int := toI16 (toU32 x % 65536)

/-- Mirror of `struct Frac`: Q.16 fixed-point playback cursor, a 32-bit
increment over a 64-bit offset. -/
structure Frac where
  inc : Nat
  offset : Nat
deriving Repr, DecidableEq

/-- Mirror of `Frac::new`: `inc = (n << 16) / d` in `u32` arithmetic. -/
def Frac.new (n d : Nat) : Option Frac :=
  if d = 0 then none else some { inc := n * 65536 % 4294967296 / d, offset := 0 }

/-- Mirror of `Frac::int`: high bits of the offset as `u32`. -/
def Frac.int (f : Frac) : Nat := f.offset / 65536 % 4294967296

/-- Mirror of `Frac::set_int`. -/
def Frac.set_int (f : Frac) (i : Nat) : Frac := { f with offset := i * 65536 }

/-- Mirror of `Frac::frac`: the offset truncated to `u16`. -/
def Frac.fracPart (f : Frac) : Nat := f.offset % 65536

/-- Mirror of `Frac::inc`: advance the 64-bit offset by the increment. -/
def Frac.step (f : Frac) : Frac := { f with offset := wadd64 f.offset f.inc }

/-- Mirror of `Frac::interpolate`: blend two `i8` samples by the fractional
part in `i32` arithmetic, truncated back to `i16`. -/
def Frac.interpolate (f : Frac) (s1 s2 : Int) : Int :=
  i32AsI16 (Int.fdiv (s1 * (0xFFFF - (f.fracPart : Int)) + s2 * (f.fracPart : Int)) 65536)

/-- Mirror of `struct Channel`. -/
structure Channel where
  sample_address : Nat
  sample_len : Nat
  sample_loop_pos : Nat
  sample_loop_len : Nat
  volume : Nat
  pos : Frac
deriving Repr, DecidableEq

/-- An all-zero channel (`Channel::default`). -/
def Channel.default : Channel :=
  { sample_address := 0, sample_len := 0, sample_loop_pos := 0,
    sample_loop_len := 0, volume := 0, pos := { inc := 0, offset := 0 } }

/-- Mirror of `struct Instrument`. -/
structure Instrument where
  address : Nat
  volume : Nat
deriving Repr, DecidableEq

/-- Mirror of `struct Track`. -/
structure Track where
  address : Nat
  cur_pos : Nat
  cur_order : Nat
  num_order : Nat
  order_table : List Nat
  samples : List Instrument
deriving Repr, DecidableEq

/-- The default (empty) track. -/
def Track.default : Track :=
  { address := 0, cur_pos := 0, cur_order := 0, num_order := 0,
    order_table := List.replicate 0x80 0,
    samples := List.replicate 15 { address := 0, volume := 0 } }

/-- Mirror of `struct Player`: tick delay, samples left in the current tick,
the four channels (indexed by number) and the current track. -/
structure Player where
  delay : Nat
  samples_left : Nat
  channels : Nat → Channel
  track : Track

/-- Mirror of `cvt_delay`: `delay * 60 / 7050` truncated to `u16`. -/
def cvt_delay (delay : Nat) : Nat := delay * 60 / 7050 % 65536

/-! ## Task VM state (src/script.rs) and the game aggregate (src/main.rs) -/

/-- Program counter value of a halted task. -/
def HALT_PC : Nat := 0xFFFF

/-- Pending program counter that schedules a halt at the next staging. -/
def PRE_HALT_PC : Nat := 0xFFFE

/-- Mirror of `struct Task`: a live or pending task slot. -/
structure TaskSlot where
  pc : Nat
  frozen : Bool
deriving Repr, DecidableEq

/-- Default task slot: halted, not frozen. -/
def TaskSlot.default : TaskSlot := { pc := HALT_PC, frozen := false }

/-- Mirror of `struct Vm`: the 256 registers (as a function from register id),
the 64-slot call stack, current pc and sp, the live and pending task tables
(functions from task id) and the yield flag. The `last_swap_time` Instant of
the source is wall-clock state with no effect on any other field and is not
modelled. -/
structure VmState where
  regs : Nat → Int
  call_stack : Nat → Nat
  pc : Nat
  sp : Nat
  tasks : Nat → TaskSlot
  pending_tasks : Nat → TaskSlot
  needs_yield : Bool

/-- Store an `i16` value into one register. -/
def vmSetReg (v : VmState) (i : Nat) (x : Int) : VmState :=
  { v with regs := fun r => if r = i then x else v.regs r }

/-- Events emitted to the platform layer (host.rs). The host itself is an
external collaborator (spec section 1: out of scope, interfaces only); the
model records each call as an event. -/
inductive HostEvent where
  | displayFrame (fb : Nat) (pixels : List Nat)
  | soundStarted (channel : Nat) (freq : Nat) (volume : Nat) (addr : Nat) (len : Nat)
      (loops : Int)
  | soundStopped (channel : Nat)
  | musicFrames (frames : List Int)
deriving Repr, DecidableEq

/-- Mirror of `struct Game` (main.rs): the component aggregate plus the
event trace of host calls. `host_slots_free` stands for the free space the
host audio ring reports to `produce_music`, and `banks` for the contents of
the on-disk `bank0x` files the pager streams from (byte `off` of bank
`num`, `none` past the end of the file); both belong to the out-of-scope
platform/data layer and are treated as external inputs. -/
structure GameState where
  mem : Memory
  vm : VmState
  video : VideoContext
  music : Player
  current_part : Nat
  next_part : Option Nat
  screen_num : Option Int
  next_pal : Option Nat
  looping_gun_quirk : Bool
  bypass_protection : Bool
  host : List HostEvent
  host_slots_free : Nat
  banks : Nat → Nat → Option Nat

/-- Replace one mixer channel of the player. -/
def setChannel (p : Player) (i : Nat) (c : Channel) : Player :=
  { p with channels := fun j => if j = i then c else p.channels j }

/-- The sample fetch, interpolation, volume scaling and clamping tail of
`mix_channel`: `pos1`/`pos2` index from the channel sample address, the
channel has already had its cursor advanced. `none` is the out-of-bounds
arena read panic. -/
def mixChannelSample (mem : List Nat) (c : Channel) (in_sample : Int) (pos1 pos2 : Nat) :
    Option (Int × Channel) :=
  match mem[c.sample_address + pos1]?, mem[c.sample_address + pos2]? with
  | some b1, some b2 =>
      some (imax (-128) (imin (wrapI16 (in_sample +
        Int.tdiv (wrapI16 (c.pos.interpolate (toI8 b1) (toI8 b2) * toI16 c.volume)) 64)) 127), c)
  | _, _ => none

/-- The per-channel body of `mix_channel`, acting on the channel value and
the arena. The source's early returns become the first two branches: a
silent channel passes `in_sample` through, and reaching the end of a
non-looping sample clears `sample_len` after the cursor increment. In the
looping branch the cursor is wrapped with `set_int` before interpolation,
exactly as in the source. -/
def mixChannelCore (mem : List Nat) (c : Channel) (in_sample : Int) : Option (Int × Channel) :=
  if c.sample_len = 0 then some (in_sample, c)
  else if c.sample_loop_len ≠ 0 then
    if c.pos.int + 1 = c.sample_loop_pos + c.sample_loop_len then
      mixChannelSample mem { c with pos := (c.pos.step).set_int c.sample_loop_pos }
        in_sample c.pos.int c.sample_loop_pos
    else
      mixChannelSample mem { c with pos := c.pos.step } in_sample c.pos.int (c.pos.int + 1)
  else if c.pos.int + 1 = c.sample_len then
    some (in_sample, { c with pos := c.pos.step, sample_len := 0 })
  else
    mixChannelSample mem { c with pos := c.pos.step } in_sample c.pos.int (c.pos.int + 1)

/-- Mirror of `mix_channel`, lifted to the game state. -/
def mix_channel (g : GameState) (i : Nat) (in_sample : Int) : Option (Int × GameState) :=
  match mixChannelCore g.mem.data (g.music.channels i) in_sample with
  | none => none
  | some (sample, c) => some (sample, { g with music := setChannel g.music i c })

/-- Mirror of `struct Pattern`: the staging record `handle_pattern` fills
from the instrument table before updating a channel. -/
structure Pattern where
  sample_address : Nat
  sample_start : Nat
  sample_len : Nat
  sample_volume : Nat
  loop_pos : Nat
  loop_len : Nat
deriving Repr, DecidableEq

/-- The instrument-selection half of `handle_pattern`: when the high nibble
of `note2` names a sample and that instrument is resolved, build the
`Pattern` (lengths doubled in `u16` arithmetic, loop region after the sample,
optional volume up/down effect 5/6); otherwise no pattern. `none` is an
arena read panic or a missing instrument-table entry. -/
def patternOf (mem : List Nat) (track : Track) (note2 : Nat) : Option (Option Pattern) :=
  if note2 >>> 12 ≠ 0 then
    match track.samples[note2 >>> 12 - 1]? with
    | none => none
    | some ins =>
        if ins.address ≠ 0 then
          match readU16BE mem ins.address, readU16BE mem (ins.address + 2) with
          | some rawLen, some rawLoop =>
              some (some
                { sample_address := ins.address, sample_start := 8,
                  sample_len := rawLen * 2 % 65536,
                  loop_pos := if rawLoop * 2 % 65536 ≠ 0 then rawLen * 2 % 65536 else 0,
                  loop_len := if rawLoop * 2 % 65536 ≠ 0 then rawLoop * 2 % 65536 else 0,
                  sample_volume :=
                    if (note2 >>> 8) &&& 0xF = 5 then
                      nmin ((ins.volume + (note2 &&& 0xFF)) % 65536) 0x3F
                    else if (note2 >>> 8) &&& 0xF = 6 then
                      ins.volume - (note2 &&& 0xFF)
                    else ins.volume })
          | _, _ => none
        else some none
  else some none

/-- The channel-value body of `handle_pattern` after the music-sync early
return: apply the pattern volume to the channel when an instrument was
selected, then the `0xFFFE` stop, the Amiga period assert
(`0x37 <= note1 < 0x1000`, `none` on failure) and the channel install. -/
def handlePatternCore (mem : List Nat) (track : Track) (c : Channel) (note1 note2 : Nat) :
    Option Channel :=
  match patternOf mem track note2 with
  | none => none
  | some patOpt =>
      match (match patOpt with
             | some pat => { c with volume := pat.sample_volume }
             | none => c) with
      | c =>
          if note1 = 0xFFFE then some { c with sample_len := 0 }
          else if note1 ≠ 0 then
            match patOpt with
            | some pat =>
                if pat.sample_address ≠ 0 then
                  if 0x37 ≤ note1 ∧ note1 < 0x1000 then
                    match Frac.new (7159092 / (note1 * 2) % 65536) HOST_RATE with
                    | none => none
                    | some f =>
                        some { sample_address := pat.sample_address + pat.sample_start,
                               sample_len := pat.sample_len,
                               sample_loop_pos := pat.loop_pos,
                               sample_loop_len := pat.loop_len,
                               volume := pat.sample_volume,
                               pos := f }
                  else none
                else some c
            | none => some c
          else some c

/-- Mirror of `handle_pattern`, lifted to the game state: the `0xFFFD`
note triggers `Vm::sync_music` (store `note2` into register 0xF4) and
returns; otherwise the channel is updated through `handlePatternCore`. -/
def handle_pattern (g : GameState) (channel : Nat) (address : Nat) : Option GameState :=
  match readU16BE g.mem.data address, readU16BE g.mem.data (address + 2) with
  | some note1, some note2 =>
      if note1 = 0xFFFD then
        some { g with vm := vmSetReg g.vm 0xF4 (toI16 note2) }
      else
        match handlePatternCore g.mem.data g.music.track (g.music.channels channel)
            note1 note2 with
        | none => none
        | some c => some { g with music := setChannel g.music channel c }
  | _, _ => none

/-- Mirror of `process_events`: run the four channel patterns at the current
order/step, then advance `cur_pos` by 16 bytes, rolling into the next order
(with `u8` wrap-around) past 1024. -/
def process_events (g : GameState) : Option GameState :=
  match g.music.track.order_table[g.music.track.cur_order]? with
  | none => none
  | some order =>
      match handle_pattern g 0
          (g.music.track.address + g.music.track.cur_pos + order * 1024) with
      | none => none
      | some g1 =>
          match handle_pattern g1 1
              (g.music.track.address + g.music.track.cur_pos + order * 1024 + 4) with
          | none => none
          | some g2 =>
              match handle_pattern g2 2
                  (g.music.track.address + g.music.track.cur_pos + order * 1024 + 8) with
              | none => none
              | some g3 =>
                  match handle_pattern g3 3
                      (g.music.track.address + g.music.track.cur_pos + order * 1024 + 12) with
                  | none => none
                  | some g4 =>
                      some { g4 with music := { g4.music with track :=
                        (if g4.music.track.cur_pos + 16 ≥ 1024 then
                          { g4.music.track with
                            cur_pos := 0,
                            cur_order := (g4.music.track.cur_order + 1) % 256 }
                        else
                          { g4.music.track with
                            cur_pos := g4.music.track.cur_pos + 16 }) } }

/-- Produce `count` stereo frames: each frame mixes channels 0 then 3 into
the left sample and 1 then 2 into the right sample, scaled by 256 to `i16`
(the `for i in 0..count` body of `mix_samples`). -/
def mixFrames (count : Nat) (g : GameState) : Option (GameState × List Int) :=
  match count with
  | 0 => some (g, [])
  | count + 1 =>
      match mix_channel g 0 0 with
      | none => none
      | some (s1, g) =>
          match mix_channel g 3 s1 with
          | none => none
          | some (left, g) =>
              match mix_channel g 1 0 with
              | none => none
              | some (s2, g) =>
                  match mix_channel g 2 s2 with
                  | none => none
                  | some (right, g) =>
                      match mixFrames count g with
                      | none => none
                      | some (g, rest) =>
                          some (g, wrapI16 (left * 256) :: wrapI16 (right * 256) :: rest)

/-- The `while len != 0` loop of `mix_samples`: refill the tick counter with
`process_events` when exhausted, then emit `min(samples_left, len)` frames.
`samples_per_tick` is at least 44 for any representable delay, so the fuel
`len + 1` passed by `mix_samples` can never run out. -/
def mixLoop (fuel : Nat) (samples_per_tick : Nat) (len : Nat) (g : GameState) :
    Option (GameState × List Int) :=
  match fuel with
  | 0 => none
  | fuel + 1 =>
      if len = 0 then some (g, [])
      else
        match (if g.music.samples_left = 0 then
                 (process_events g).map (fun g1 =>
                   { g1 with music := { g1.music with samples_left := samples_per_tick } })
               else some g) with
        | none => none
        | some g =>
            match mixFrames (nmin g.music.samples_left len) g with
            | none => none
            | some (g1, frames) =>
                match mixLoop fuel samples_per_tick (len - nmin g.music.samples_left len)
                    { g1 with music := { g1.music with
                      samples_left := g.music.samples_left - nmin g.music.samples_left len } } with
                | none => none
                | some (g2, rest) => some (g2, frames ++ rest)

/-- One pair step of the `nr` smoothing filter. As in the source, `pair[0]`
is assigned the smoothed left sample and then overwritten by the smoothed
right sample, and `pair[1]` is never written. -/
def nrGo (prev_l prev_r : Int) : List Int → List Int
  | l :: r :: rest =>
      wrapI16 (Int.fdiv r 2 + prev_r) :: r :: nrGo (Int.fdiv l 2) (Int.fdiv r 2) rest
  | rest => rest

/-- Mirror of `nr`: the one-pole smoothing pass over complete stereo pairs. -/
def nr (out : List Int) : List Int := nrGo 0 0 out

/-- Mirror of `mix_samples`. `assert!(delay != 0)` is the first `none`; a
delay above 1000 would make `1000 / delay` zero and the samples-per-tick
division panic, the second `none`. The source advances the `out` slice by
`count * 2` every loop iteration, so the final `nr(out)` call receives only
the leftover tail (at most one sample, never a complete pair): the produced
frames are returned unsmoothed. -/
def mix_samples (g : GameState) (out : List Int) : Option (GameState × List Int) :=
  if g.music.delay = 0 then none
  else if 1000 / g.music.delay = 0 then none
  else
    match mixLoop (out.length / 2 + 1) (HOST_RATE / (1000 / g.music.delay))
        (out.length / 2) g with
    | none => none
    | some (g1, produced) =>
        some (g1, produced ++ nr (out.drop (out.length / 2 * 2)))

/-- An all-zero VM state. -/
def vm0 : VmState :=
  { regs := fun _ => 0, call_stack := fun _ => 0, pc := 0, sp := 0,
    tasks := fun _ => TaskSlot.default, pending_tasks := fun _ => TaskSlot.default,
    needs_yield := false }

/-- Channel fixture for the mixer claim: a two-byte non-looping sample at
arena offset 100, full volume, zero playback increment. -/
def chan9 : Channel :=
  { sample_address := 100, sample_len := 2, sample_loop_pos := 0,
    sample_loop_len := 0, volume := 64, pos := { inc := 0, offset := 0 } }

/-- Game fixture for the mixer claim: delay 500 (so 22050 samples per tick),
channel 0 playing `chan9`, all-zero pattern data at the track address, and
the arena byte at offset 100 holding sample value 100. -/
def g9 : GameState :=
  { mem := { list := [], data := (List.replicate 102 0).set 100 100,
             data_bak := 0, data_cur := 0, seg_code := 0, seg_video_pal := 0,
             seg_video1 := 0, seg_video2 := 0 },
    vm := vm0, video := VideoContext.new,
    music := { delay := 500, samples_left := 0,
               channels := fun i => if i = 0 then chan9 else Channel.default,
               track := Track.default },
    current_part := 0, next_part := none, screen_num := none, next_pal := none,
    looping_gun_quirk := false, bypass_protection := true, host := [],
    host_slots_free := 0, banks := fun _ _ => none }

/-! ## Data tables (src/data.rs is not part of the provided sources) -/

/-- Modelled from the spec: `data::FREQUENCY_TABLE`, the table mapping the
frequency operand of the play-sound opcode to a rate in Hz, lives in
data.rs, which is not among the provided sources. Only its length (40
entries, as in the original engine) and the fact that entries are `u16`
rates matter to the claims proved here; the placeholder rate keeps the
host-side `GAME_RATE / freq <= 4` assert satisfiable. -/
def FREQUENCY_TABLE : List Nat := List.replicate 40 0x1000

/-- Modelled from the spec: `data::FONT`, the 768-byte 8x8 glyph table
(spec 4.3), lives in data.rs, which is not among the provided sources; the
glyph bit patterns are opaque data and no claim depends on them. -/
def FONT : List Nat := List.replicate 768 0

/-- Modelled from the spec: `data::STRINGS_EN`, the id-to-text table used by
`draw_string`, lives in data.rs, which is not among the provided sources.
Strings are opaque data (modelled as byte lists) and no claim depends on
them, so the table is left empty: every lookup takes the warn-and-return
path of `draw_string`. -/
def STRINGS_EN : List (Nat × List Nat) := []

/-! ## Pager pieces used by the VM (src/mem.rs) -/

/-- Size of the data arena (1 MiB). -/
def DATA_SIZE : Nat := 1048576

/-- Fixed scratch address for bitmap loads. -/
def DATA_BMP_OFFSET : Nat := DATA_SIZE - 0x800 * 16

/-- Kind tag of bitmap entries (`entry_kind::BITMAP`). -/
def KIND_BITMAP : Nat := 2

/-- Modelled from the spec: the Sound and Music entry kinds referenced by
sfx.rs (`mem::entry_kind::SOUND` / `MUSIC`) are declared in a part of
mem.rs not present in the provided sources; kind 2 is Bitmap (mem.rs) and
the original engine numbers Sound 0 and Music 1. -/
def KIND_SOUND : Nat := 0

/-- Modelled from the spec: see `KIND_SOUND`. -/
def KIND_MUSIC : Nat := 1

/-- Modelled from the spec: `mem::address_of_entry(num)` as called by
`play_sound_shim` (its `Option`-returning overload is not in the provided
mem.rs): the address of entry `num` when that entry is Ready. -/
def address_of_entry (m : Memory) (num : Nat) : Option Nat :=
  match m.list[num]? with
  | none => none
  | some e => if e.status = STATUS_READY then some e.address else none

/-- Modelled from the spec (4.2): `mem::address_of_entry_with_kind(num,
kind)` (not in the provided mem.rs) returns the address iff the entry is
Ready and of the expected kind. -/
def address_of_entry_with_kind (m : Memory) (num kind : Nat) : Option Nat :=
  match m.list[num]? with
  | none => none
  | some e =>
      if e.status = STATUS_READY ∧ e.kind = kind then some e.address else none

/-- The pixel produced by the planar bitmap unpacking of `copy_bitmap` for
screen position `(y, x)`: one bit from each of the four 8000-byte planes of
the scratch image at `base` (plane 3 is the high bit), the closed form of
the bit-slicing loop in video/mod.rs. -/
def bitmapPixel (mem : List Nat) (base y x : Nat) : Nat :=
  (mem.getD (base + 24000 + (y * 40 + x / 8)) 0) / 2 ^ (7 - x % 8) % 2 * 8 +
  (mem.getD (base + 16000 + (y * 40 + x / 8)) 0) / 2 ^ (7 - x % 8) % 2 * 4 +
  (mem.getD (base + 8000 + (y * 40 + x / 8)) 0) / 2 ^ (7 - x % 8) % 2 * 2 +
  (mem.getD (base + (y * 40 + x / 8)) 0) / 2 ^ (7 - x % 8) % 2

/-- Mirror of `copy_bitmap` composed with `soft::draw_bitmap`: unpack the
4-plane scratch image into framebuffer 0. The loop reads exactly the 32000
bytes `[base, base + 32000)`, so the single bounds guard models its
possible index panics. -/
def copy_bitmap (v : VideoContext) (base : Nat) (mem : List Nat) : Option VideoContext :=
  if base + 32000 ≤ mem.length then
    some { v with rndr := { v.rndr with
      fb := fun p i =>
        if p = 0 ∧ i < FB_SIZE then bitmapPixel mem base (i / 320) (i % 320)
        else v.rndr.fb p i } }
  else
    none

/-- The bank-file oracle: byte `off` of file `bankNN`; `none` stands for a
missing file or a short read (a fatal `unwrap` in `read_bank`). The bank
files are external data inputs, carried in the game state unchanged. -/
def bankByte (banks : Nat → Nat → Option Nat) (num off : Nat) : Option Nat :=
  banks num off

/-- Copy `count` bytes of bank `num` starting at `pos` into `data` from
offset `address + i` on (the `read_exact` of `read_bank`); `none` models a
missing byte (short read) or a store past the arena end. -/
def readBankBytes (banks : Nat → Nat → Option Nat) (num pos address : Nat) :
    Nat → Nat → List Nat → Option (List Nat)
  | 0, _, data => some data
  | count + 1, i, data =>
      match bankByte banks num (pos + i) with
      | none => none
      | some b =>
          if address + i < data.length then
            readBankBytes banks num pos address count (i + 1) (data.set (address + i) b)
          else
            none

/-- Mirror of `read_bank`: stream the packed entry body into the arena at
`address`, then run the bit unpacker in place over
`[address, address + unpacked_size)` when the entry is compressed. A failed
decompression (any non-`ok` unpacker outcome, all of which are panics or
fatal asserts in the source) is `none`. -/
def read_bank (banks : Nat → Nat → Option Nat) (e : MemEntry) (address : Nat)
    (data : List Nat) : Option (List Nat) :=
  if address ≤ data.length then
    match readBankBytes banks e.bank_num e.bank_pos address e.packed_size 0 data with
    | none => none
    | some data =>
        if e.packed_size ≠ e.unpacked_size then
          if address + e.unpacked_size ≤ data.length then
            match unpack ((data.drop address).take e.unpacked_size) e.packed_size with
            | UnpackResult.ok c =>
                some (data.take address ++ c.buf ++ data.drop (address + e.unpacked_size))
            | _ => none
          else
            none
        else
          some data
  else
    none

/-- The Pending entry of largest `rank_num`; ties resolve to the later entry
(`Iterator::max_by_key` keeps the last maximal element). -/
def pickPendingGo : List MemEntry → Nat → Option (Nat × MemEntry) → Option (Nat × MemEntry)
  | [], _, best => best
  | e :: rest, i, best =>
      if e.status = STATUS_PENDING then
        match best with
        | none => pickPendingGo rest (i + 1) (some (i, e))
        | some (bi, be) =>
            if be.rank_num ≤ e.rank_num then pickPendingGo rest (i + 1) (some (i, e))
            else pickPendingGo rest (i + 1) (some (bi, be))
      else pickPendingGo rest (i + 1) best

/-- Selection step of the `load_entries` loop. -/
def pickPending (l : List MemEntry) : Option (Nat × MemEntry) := pickPendingGo l 0 none

/-- Mirror of `load_entries`: repeatedly service the highest-ranked Pending
entry — bitmaps stream into the fixed scratch and are blitted to
framebuffer 0 and re-emptied; other kinds land at `data_cur` (asserting it
fits below the scratch, with the source's wrapping `usize` subtraction) and
become Ready. Every iteration turns one Pending entry Empty or Ready, so
the fuel `list length + 1` passed by callers is ample. -/
def load_entries (fuel : Nat) (g : GameState) : Option GameState :=
  match fuel with
  | 0 => none
  | fuel + 1 =>
      match pickPending g.mem.list with
      | none => some g
      | some (i, e) =>
          if e.kind = KIND_BITMAP then
            if e.bank_num = 0 then
              load_entries fuel
                { g with mem := { g.mem with
                  list := g.mem.list.set i { e with status := STATUS_EMPTY } } }
            else
              match read_bank g.banks e DATA_BMP_OFFSET g.mem.data with
              | none => none
              | some data =>
                  match copy_bitmap g.video DATA_BMP_OFFSET data with
                  | none => none
                  | some v =>
                      load_entries fuel
                        { g with
                          video := v,
                          mem := { g.mem with
                            data := data,
                            list := g.mem.list.set i { e with status := STATUS_EMPTY } } }
          else
            if e.unpacked_size ≤ wsub64 DATA_BMP_OFFSET g.mem.data_cur then
              if e.bank_num = 0 then
                load_entries fuel
                  { g with mem := { g.mem with
                    list := g.mem.list.set i { e with status := STATUS_EMPTY } } }
              else
                match read_bank g.banks e g.mem.data_cur g.mem.data with
                | none => none
                | some data =>
                    load_entries fuel
                      { g with mem := { g.mem with
                        data := data,
                        data_cur := g.mem.data_cur + e.unpacked_size,
                        list := g.mem.list.set i
                          { e with status := STATUS_READY,
                                   address := g.mem.data_cur } } }
            else
              none

/-- Mirror of `load_entry`: mark an Empty entry Pending and run the loader;
an out-of-range entry number is the source's index panic. -/
def load_entry (g : GameState) (num : Nat) : Option GameState :=
  match g.mem.list[num]? with
  | none => none
  | some e =>
      if e.status = STATUS_EMPTY then
        load_entries (g.mem.list.length + 1)
          { g with mem := { g.mem with
            list := g.mem.list.set num { e with status := STATUS_PENDING } } }
      else
        some g

/-! ## Sound effect and music entry points (src/sfx.rs, src/host.rs) -/

/-- Wrapping subtraction on 32-bit unsigned integers (release-mode `-` on
`u32`). -/
def wsub32 (a b : Nat) : Nat :=
  (a % 4294967296 + (4294967296 - b % 4294967296)) % 4294967296

/-- Mirror of `sfx::stop_sound` composed with `host::stop_sound`: the host
halts the mixer channel, recorded as an event. -/
def stop_sound (g : GameState) (channel : Nat) : GameState :=
  { g with host := HostEvent.soundStopped channel :: g.host }

/-- Mirror of `stop_sound_and_music`: halt the four channels and zero the
music delay (`set_delay(0)`, and `cvt_delay 0 = 0`). -/
def stop_sound_and_music (g : GameState) : GameState :=
  { stop_sound (stop_sound (stop_sound (stop_sound g 0) 1) 2) 3 with
    music := { g.music with delay := cvt_delay 0 } }

/-- The `while pos.int() < len` resampling loop of `host::play_sound`,
reduced to its only game-visible effect: each iteration reads one sample
byte at `base + pos.int()` of the arena, so `none` is the out-of-bounds
read panic. The increment is at least `0x4000` for any frequency passing
the rate assert, so the fuel `6 * len + 6` passed by `host_play_sound`
cannot run out. -/
def hostResample (mem : List Nat) (base len inc : Nat) : Nat → Nat → Option Unit
  | 0, _ => none
  | fuel + 1, offset =>
      if offset / 65536 % 4294967296 < len then
        match mem[base + offset / 65536 % 4294967296]? with
        | none => none
        | some _ => hostResample mem base len inc fuel (wadd64 offset inc)
      else
        some ()

/-- Mirror of `host::play_sound` up to the game/host boundary: the
`GAME_RATE / freq <= 4` assert (a zero frequency is the division panic),
the implicit `stop_sound`, the resampling read of the sample bytes, and the
start of playback recorded as an event. The SDL-side chunk conversion and
channel volume setup have no game-visible state. -/
def host_play_sound (g : GameState) (channel freq volume addr len : Nat) (loops : Int) :
    Option GameState :=
  if freq = 0 then none
  else if GAME_RATE / freq ≤ 4 then
    match Frac.new freq GAME_RATE with
    | none => none
    | some f =>
        match hostResample g.mem.data addr len f.inc (6 * len + 6) 0 with
        | none => none
        | some _ =>
            some { g with host := HostEvent.soundStarted channel freq volume addr len loops ::
              HostEvent.soundStopped channel :: g.host }
  else
    none

/-- Mirror of `sfx::play_sound`: read the length and loop-length words of
the sample header (`u16` arithmetic, doubled), pick the looping or
one-shot length, and hand the body at `address + 8` to the host. -/
def sfx_play_sound (g : GameState) (channel address freq volume : Nat) : Option GameState :=
  if address ≤ g.mem.data.length then
    match readU16BE g.mem.data address, readU16BE g.mem.data (address + 2) with
    | some len0, some loop0 =>
        if address + 8 ≤ g.mem.data.length then
          host_play_sound g channel freq volume (address + 8)
            (if loop0 * 2 % 65536 ≠ 0 then loop0 * 2 % 65536 else len0 * 2 % 65536)
            (if loop0 * 2 % 65536 ≠ 0 then -1 else 0)
        else
          none
    | _, _ => none
  else
    none

/-- Mirror of `play_sound_shim` (script.rs): volume 0 stops the channel;
otherwise the resource must be Ready, the frequency operand indexes
`FREQUENCY_TABLE` (`none` is the index panic) and the volume is clamped to
`0x3F`. -/
def play_sound_shim (g : GameState) (resource freq volume channel : Nat) : Option GameState :=
  if volume = 0 then some (stop_sound g channel)
  else
    match address_of_entry g.mem resource with
    | none => some g
    | some address =>
        match FREQUENCY_TABLE[freq]? with
        | none => none
        | some f => sfx_play_sound g (channel &&& 3) address f (nmin volume 0x3F)

/-- The `for i in 0..15` loop of `prepare_instruments`: read each
instrument descriptor (resource number and volume) from the table at
`base`, resolving non-zero resources through the Sound-kind address lookup
(`expect`, so `none` when missing). -/
def prepInstrGo (m : Memory) (base : Nat) : Nat → Nat → Option (List Instrument)
  | _, 0 => some []
  | i, k + 1 =>
      match readU16BE m.data (base + i * 4) with
      | none => none
      | some res_num =>
          if res_num ≠ 0 then
            match readU16BE m.data (base + i * 4 + 2) with
            | none => none
            | some vol =>
                match address_of_entry_with_kind m res_num KIND_SOUND with
                | none => none
                | some a =>
                    match prepInstrGo m base (i + 1) k with
                    | none => none
                    | some rest => some ({ address := a, volume := vol } :: rest)
          else
            match prepInstrGo m base (i + 1) k with
            | none => none
            | some rest => some ({ address := 0, volume := 0 } :: rest)

/-- Mirror of `sfx::seek`: locate the Music-kind resource (warn-return when
absent), read the order count — at the doubled offset
`address + address + 0x3E`, as the source indexes the already-sliced
buffer with `address + 0x3E` again — copy the 128-byte order table, pick
the tick delay (header word when the operand is 0), prepare the 15
instruments and install the fresh track with all channels reset. -/
def seek (g : GameState) (res_num delay cur_order : Nat) : Option GameState :=
  match address_of_entry_with_kind g.mem res_num KIND_MUSIC with
  | none => some g
  | some address =>
      if address ≤ g.mem.data.length then
        match readU16BE g.mem.data (address + address + 0x3E) with
        | none => none
        | some num_order =>
            if address + 0xC0 ≤ g.mem.data.length then
              match (if delay = 0 then readU16BE g.mem.data address else some delay) with
              | none => none
              | some d =>
                  match prepInstrGo g.mem (address + 2) 0 15 with
                  | none => none
                  | some samples =>
                      some { g with music :=
                        { delay := cvt_delay d,
                          samples_left := 0,
                          channels := fun _ => Channel.default,
                          track :=
                            { address := address + 0xC0,
                              cur_pos := 0,
                              cur_order := cur_order,
                              num_order := num_order,
                              order_table := (g.mem.data.drop (address + 64)).take 0x80,
                              samples := samples } } }
            else
              none
      else
        none

/-- Mirror of `host::produce_music`: skip when the track ended, else mix
into a buffer sized to the free ring slots and push the frames to the
audio ring, recorded as an event. (The persistent `music_buf` scratch is
host state; its stale leftover byte on an odd-sized buffer is modelled
as 0.) -/
def produce_music (g : GameState) : Option GameState :=
  if g.music.delay = 0 then some g
  else
    match mix_samples g (List.replicate g.host_slots_free 0) with
    | none => none
    | some (g1, out) => some { g1 with host := HostEvent.musicFrames out :: g1.host }

/-- Mirror of `host::display_surface`: RGB565 readback of the given page
(`none` is the palette-index panic of `read_pixels`) pushed to the screen,
recorded as an event. -/
def display_surface (g : GameState) (fb : Nat) : Option GameState :=
  (read_pixels g.video.rndr fb).map
    (fun px => { g with host := HostEvent.displayFrame fb px :: g.host })

/-! ## Palette loading, text and shape drawing (src/video/mod.rs) -/

/-- The EGA palette table of video/mod.rs. -/
def EGA_PAL : List (Nat × Nat × Nat) :=
  [(0x00, 0x00, 0x00), (0x00, 0x00, 0xAA), (0x00, 0xAA, 0x00), (0x00, 0xAA, 0xAA),
   (0xAA, 0x00, 0x00), (0xAA, 0x00, 0xAA), (0xAA, 0x55, 0x00), (0xAA, 0xAA, 0xAA),
   (0x55, 0x55, 0x55), (0x55, 0x55, 0xFF), (0x55, 0xFF, 0x55), (0x55, 0xFF, 0xFF),
   (0xFF, 0x55, 0x55), (0xFF, 0x55, 0xFF), (0xFF, 0xFF, 0x55), (0xFF, 0xFF, 0xFF)]

/-- The `for i in 0..PAL_SIZE` loop of `read_vga_pal`: each big-endian word
yields 4-bit components duplicated into both nibbles. -/
def readVgaPalGo (mem : List Nat) (base : Nat) : Nat → Nat → Option (List RgbColor)
  | _, 0 => some []
  | i, k + 1 =>
      match readU16BE mem (base + i * 2) with
      | none => none
      | some w =>
          match readVgaPalGo mem base (i + 1) k with
          | none => none
          | some rest =>
              some ({ r := (w >>> 8 &&& 0xF) ||| ((w >>> 8 &&& 0xF) <<< 4),
                      g := (w >>> 4 &&& 0xF) ||| ((w >>> 4 &&& 0xF) <<< 4),
                      b := (w &&& 0xF) ||| ((w &&& 0xF) <<< 4) } :: rest)

/-- The `for i in 0..PAL_SIZE` loop of `read_ega_pal`: the top nibble of
each word indexes `EGA_PAL` (always in range, 16 entries). -/
def readEgaPalGo (mem : List Nat) (base : Nat) : Nat → Nat → Option (List RgbColor)
  | _, 0 => some []
  | i, k + 1 =>
      match readU16BE mem (base + i * 2) with
      | none => none
      | some w =>
          match readEgaPalGo mem base (i + 1) k with
          | none => none
          | some rest =>
              some ({ r := (EGA_PAL.getD ((w >>> 12) &&& 0xF) (0, 0, 0)).1,
                      g := (EGA_PAL.getD ((w >>> 12) &&& 0xF) (0, 0, 0)).2.1,
                      b := (EGA_PAL.getD ((w >>> 12) &&& 0xF) (0, 0, 0)).2.2 } :: rest)

/-- Mirror of `load_pal_mem`: load palette `num` (below 32, and not already
current) from the palette segment — EGA colors sit 1024 bytes after the
VGA block — into the renderer and remember the palette number. -/
def load_pal_mem (g : GameState) (num : Nat) : Option GameState :=
  if num < 32 ∧ g.video.current_pal_num ≠ some num then
    match (if g.video.use_ega_pal then
             readEgaPalGo g.mem.data (g.mem.seg_video_pal + 1024 + num * 32) 0 16
           else
             readVgaPalGo g.mem.data (g.mem.seg_video_pal + num * 32) 0 16) with
    | none => none
    | some pal =>
        some { g with video := { g.video with
          rndr := { g.video.rndr with pal := pal },
          current_pal_num := some num } }
  else
    some g

/-- Mirror of video `fetch_u8`: read at the active video segment plus the
data counter and bump the counter (`u16` wrap); `none` is the arena index
panic. -/
def vfetch_u8 (g : GameState) : Option (Nat × GameState) :=
  match g.mem.data[(if g.video.use_seg2 then g.mem.seg_video2 else g.mem.seg_video1) +
      g.video.dc]? with
  | none => none
  | some b => some (b, { g with video := { g.video with dc := (g.video.dc + 1) % 65536 } })

/-- Mirror of video `fetch_u16` (big endian). -/
def vfetch_u16 (g : GameState) : Option (Nat × GameState) :=
  match vfetch_u8 g with
  | none => none
  | some (hi, g) =>
      match vfetch_u8 g with
      | none => none
      | some (lo, g) => some (hi * 256 + lo, g)

/-- Mirror of `fetch_dim`: scale the fetched byte by the zoom factor in
`u32` arithmetic; the `i16::try_from(...).unwrap()` is the `none` case. -/
def fetch_dim (g : GameState) (zoom : Nat) : Option (Int × GameState) :=
  match vfetch_u8 g with
  | none => none
  | some (b, g) =>
      if b * zoom / 64 < 32768 then some ((b * zoom / 64 : Nat), g) else none

/-- One glyph row of `draw_char`: store `color` at the set bits of the font
line, pixels `x..x+8` of row `y` (all in bounds under the caller's clip
test, so the `out` assert cannot fire). -/
def drawCharRow (s : SoftState) (fb x y line color : Nat) : SoftState :=
  { s with fb := fun p i =>
      if p = fb ∧ y * SCR_W + x ≤ i ∧ i < y * SCR_W + x + 8 ∧
          line / 2 ^ (7 - (i - (y * SCR_W + x))) % 2 = 1 then color
      else (s.fb p i) }

/-- The `for j in 0..8` loop of `draw_char`: one `FONT` row per scanline;
`none` is the font-table index panic (a character below `0x20` wraps the
`u32` glyph offset far past the table). -/
def drawCharRows (fb x y glyph color : Nat) : Nat → Nat → SoftState → Option SoftState
  | _, 0, s => some s
  | j, k + 1, s =>
      match FONT[glyph + j]? with
      | none => none
      | some line => drawCharRows fb x y glyph color (j + 1) k (drawCharRow s fb x (y + j) line color)

/-- Mirror of `soft::draw_char`: clip test, then blit the 8x8 glyph of
character code `c`. -/
def draw_char (s : SoftState) (fb x y c color : Nat) : Option SoftState :=
  if x ≤ SCR_W - 8 ∧ y ≤ SCR_H - 8 then
    drawCharRows fb x y (wsub32 c 0x20 * 8) color 0 8 s
  else
    some s

/-- Mirror of `find_string`: first table entry with the given id. -/
def find_string (table : List (Nat × List Nat)) (id : Nat) : Option (List Nat) :=
  match table with
  | [] => none
  | (i, str) :: rest => if i = id then some str else find_string rest id

/-- The character loop of `draw_string`: a newline (code 10) rewinds the
column to `left` and advances a row, any other character is drawn at the
work page and the column advances (all positions in `u16` arithmetic). -/
def drawStringGo (color left : Nat) : Nat → Nat → List Nat → VideoContext → Option VideoContext
  | _, _, [], v => some v
  | xi, ypos, c :: rest, v =>
      if c = 10 then drawStringGo color left left ((ypos + 8) % 65536) rest v
      else
        match draw_char v.rndr v.xlat0 (xi * 8 % 65536) ypos c color with
        | none => none
        | some r => drawStringGo color left ((xi + 1) % 65536) ypos rest { v with rndr := r }

/-- Mirror of `draw_string`: look the id up in the (spec-modelled, empty)
`STRINGS_EN` table — an unknown id is the warn-return — then draw the text. -/
def draw_string (v : VideoContext) (xi ypos str_id color : Nat) : Option VideoContext :=
  match find_string STRINGS_EN str_id with
  | none => some v
  | some text => drawStringGo color xi xi ypos text v

/-- The vertex-reading loop of `fill_polygon`: each vertex offsets the
clipped bounding-box corner by two fetched dimensions (`i16` wrapping add),
and the `QuadStrip::push` assert fires at the 71st vertex. -/
def fillPolyVerts (x1 y1 : Int) (zoom : Nat) :
    Nat → GameState → List Vertex → Option (List Vertex × GameState)
  | 0, g, acc => some (acc, g)
  | n + 1, g, acc =>
      if acc.length = 70 then none
      else
        match fetch_dim g zoom with
        | none => none
        | some (dx, g) =>
            match fetch_dim g zoom with
            | none => none
            | some (dy, g) =>
                fillPolyVerts x1 y1 zoom n g
                  (acc ++ [{ x := wrapI16 (x1 + dx), y := wrapI16 (y1 + dy) }])

/-- Tail of `fill_polygon` after the corner conversions: screen-bounds
early-out, vertex count (odd counts warn-return), vertex list, then either
the single-point fast path or the quad-strip rasterizer on the work page. -/
def fillPolyClipped (g : GameState) (x y bbw bbh : Int) (zoom color : Nat)
    (x1 x2 y1 y2 : Int) : Option GameState :=
  if 319 < x1 ∨ x2 < 0 ∨ 199 < y1 ∨ y2 < 0 then some g
  else
    match vfetch_u8 g with
    | none => none
    | some (num, g) =>
        if num % 2 = 1 then some g
        else
          match fillPolyVerts x1 y1 zoom num g [] with
          | none => none
          | some (vs, g) =>
              if num = 4 ∧ bbw = 0 ∧ bbh ≤ 1 then
                match draw_point g.video.rndr g.video.xlat0 (toU16 x) (toU16 y) color with
                | none => none
                | some r => some { g with video := { g.video with rndr := r } }
              else
                match draw_polygon g.video.rndr g.video.xlat0 vs color with
                | none => none
                | some r => some { g with video := { g.video with rndr := r } }

/-- Mirror of `fill_polygon`: fetch the bounding box, convert the four
corners through `i32` arithmetic with `i16::try_from(...).unwrap()` (the
`none` case), then `fillPolyClipped`. -/
def fill_polygon (g : GameState) (x y : Int) (zoom color : Nat) : Option GameState :=
  match fetch_dim g zoom with
  | none => none
  | some (bbw, g) =>
      match fetch_dim g zoom with
      | none => none
      | some (bbh, g) =>
          if -32768 ≤ x - bbw / 2 ∧ x - bbw / 2 ≤ 32767 ∧
              -32768 ≤ x + bbw / 2 ∧ x + bbw / 2 ≤ 32767 ∧
              -32768 ≤ y - bbh / 2 ∧ y - bbh / 2 ≤ 32767 ∧
              -32768 ≤ y + bbh / 2 ∧ y + bbh / 2 ≤ 32767 then
            fillPolyClipped g x y bbw bbh zoom color
              (x - bbw / 2) (x + bbw / 2) (y - bbh / 2) (y + bbh / 2)
          else
            none

/-- The per-part color selection of `draw_shape_parts`: an offset with bit
15 set carries an explicit color byte (and a discarded second byte). -/
def partColorFetch (offset : Nat) (g : GameState) : Option (Nat × GameState) :=
  if offset &&& 0x8000 ≠ 0 then
    match vfetch_u8 g with
    | none => none
    | some (hi, g) =>
        match vfetch_u8 g with
        | none => none
        | some (_, g) => some (hi &&& 0x7F, g)
  else
    some (0xFF, g)

/-- The three mutually recursive phases of shape drawing (`draw_shape`,
`draw_shape_parts` and the child loop of the latter), merged into one
fuel-indexed recursion. -/
inductive DrawJob where
  | shape (x y : Int) (zoom color : Nat)
  | parts (x y : Int) (zoom : Nat)
  | children (x y : Int) (zoom n : Nat)

/-- Mirror of `draw_shape` / `draw_shape_parts`: a leading byte `>= 0xC0`
fills one polygon (restoring the data counter afterwards and taking the
shape color when bit 7 of `color` is set), video op 2 recurses into the
part list, anything else warns and returns. Each part re-targets the data
counter (`offset << 1` in `u16`) and restores it after the child. The fuel
only bounds the total number of steps; every theorem below quantifies over
it. -/
def drawShapeGo : Nat → DrawJob → GameState → Option GameState
  | 0, _, _ => none
  | fuel + 1, DrawJob.shape x y zoom color, g =>
      match vfetch_u8 g with
      | none => none
      | some (i, g) =>
          if 0xC0 ≤ i then
            match fill_polygon g x y zoom (if color &&& 0x80 ≠ 0 then i &&& 0x3F else color) with
            | none => none
            | some g1 => some { g1 with video := { g1.video with dc := g.video.dc } }
          else if i &&& 0x3F = 2 then drawShapeGo fuel (DrawJob.parts x y zoom) g
          else some g
  | fuel + 1, DrawJob.parts x y zoom, g =>
      match fetch_dim g zoom with
      | none => none
      | some (dx, g) =>
          match fetch_dim g zoom with
          | none => none
          | some (dy, g) =>
              match vfetch_u8 g with
              | none => none
              | some (n, g) =>
                  drawShapeGo fuel
                    (DrawJob.children (wrapI16 (x - dx)) (wrapI16 (y - dy)) zoom (n + 1)) g
  | _ + 1, DrawJob.children _ _ _ 0, g => some g
  | fuel + 1, DrawJob.children x y zoom (n + 1), g =>
      match vfetch_u16 g with
      | none => none
      | some (offset, g) =>
          match fetch_dim g zoom with
          | none => none
          | some (dx, g) =>
              match fetch_dim g zoom with
              | none => none
              | some (dy, g) =>
                  match partColorFetch offset g with
                  | none => none
                  | some (color, g) =>
                      match drawShapeGo fuel
                          (DrawJob.shape (wrapI16 (x + dx)) (wrapI16 (y + dy)) zoom color)
                          { g with video := { g.video with dc := offset * 2 % 65536 } } with
                      | none => none
                      | some g1 =>
                          drawShapeGo fuel (DrawJob.children x y zoom n)
                            { g1 with video := { g1.video with dc := g.video.dc } }

/-- Mirror of `video::draw_shape` entered at the top level. -/
def draw_shape (fuel : Nat) (g : GameState) (x y : Int) (zoom color : Nat) :
    Option GameState :=
  drawShapeGo fuel (DrawJob.shape x y zoom color) g

/-! ## The bytecode interpreter (src/script.rs) -/

/-- Mirror of script `fetch_u8`: read at `seg_code + pc` and bump the
program counter (`u16` wrap); `none` is the arena index panic. -/
def sfetch_u8 (g : GameState) : Option (Nat × GameState) :=
  match g.mem.data[g.mem.seg_code + g.vm.pc]? with
  | none => none
  | some b => some (b, { g with vm := { g.vm with pc := (g.vm.pc + 1) % 65536 } })

/-- Mirror of script `fetch_u16` (big endian). -/
def sfetch_u16 (g : GameState) : Option (Nat × GameState) :=
  match sfetch_u8 g with
  | none => none
  | some (hi, g) =>
      match sfetch_u8 g with
      | none => none
      | some (lo, g) => some (hi * 256 + lo, g)

/-- Mirror of script `fetch_i16`: the `u16` word reinterpreted as `i16`. -/
def sfetch_i16 (g : GameState) : Option (Int × GameState) :=
  match sfetch_u16 g with
  | none => none
  | some (w, g) => some (toI16 w, g)

/-- Mirror of `op_mov_const`. -/
def op_mov_const (g : GameState) : Option GameState :=
  match sfetch_u8 g with
  | none => none
  | some (dst, g) =>
      match sfetch_i16 g with
      | none => none
      | some (v, g) => some { g with vm := vmSetReg g.vm dst v }

/-- Mirror of `op_mov`. -/
def op_mov (g : GameState) : Option GameState :=
  match sfetch_u8 g with
  | none => none
  | some (dst, g) =>
      match sfetch_u8 g with
      | none => none
      | some (src, g) => some { g with vm := vmSetReg g.vm dst (g.vm.regs src) }

/-- Mirror of `op_add` (`i16::wrapping_add`). -/
def op_add (g : GameState) : Option GameState :=
  match sfetch_u8 g with
  | none => none
  | some (dst, g) =>
      match sfetch_u8 g with
      | none => none
      | some (src, g) =>
          some { g with vm := vmSetReg g.vm dst (wrapI16 (g.vm.regs dst + g.vm.regs src)) }

/-- The looping-gun-sound workaround at the head of `op_add_const`: at pc
`0x6D48` of part 16006 the shim plays the stop sound `0x5B` before the
ordinary add. -/
def gunQuirk (g : GameState) : Option GameState :=
  if g.vm.pc = 0x6D48 ∧ g.current_part = 16006 ∧ g.looping_gun_quirk = false then
    play_sound_shim g 0x5B 1 64 1
  else
    some g

/-- Mirror of `op_add_const` proper. -/
def op_add_const (g : GameState) : Option GameState :=
  match gunQuirk g with
  | none => none
  | some g =>
      match sfetch_u8 g with
      | none => none
      | some (dst, g) =>
          match sfetch_i16 g with
          | none => none
          | some (v, g) =>
              some { g with vm := vmSetReg g.vm dst (wrapI16 (g.vm.regs dst + v)) }

/-- Mirror of `op_sub` (`i16::wrapping_sub`). -/
def op_sub (g : GameState) : Option GameState :=
  match sfetch_u8 g with
  | none => none
  | some (dst, g) =>
      match sfetch_u8 g with
      | none => none
      | some (src, g) =>
          some { g with vm := vmSetReg g.vm dst (wrapI16 (g.vm.regs dst - g.vm.regs src)) }

/-- Mirror of `op_and_const` (bitwise on the `i16` bit patterns). -/
def op_and_const (g : GameState) : Option GameState :=
  match sfetch_u8 g with
  | none => none
  | some (dst, g) =>
      match sfetch_i16 g with
      | none => none
      | some (v, g) =>
          some { g with vm := vmSetReg g.vm dst (toI16 (toU16 (g.vm.regs dst) &&& toU16 v)) }

/-- Mirror of `op_or_const`. -/
def op_or_const (g : GameState) : Option GameState :=
  match sfetch_u8 g with
  | none => none
  | some (dst, g) =>
      match sfetch_i16 g with
      | none => none
      | some (v, g) =>
          some { g with vm := vmSetReg g.vm dst (toI16 (toU16 (g.vm.regs dst) ||| toU16 v)) }

/-- Mirror of `op_shl_const`: release-mode `<<=` masks the shift amount to
4 bits and wraps the result. -/
def op_shl_const (g : GameState) : Option GameState :=
  match sfetch_u8 g with
  | none => none
  | some (dst, g) =>
      match sfetch_i16 g with
      | none => none
      | some (v, g) =>
          some { g with vm := (vmSetReg g.vm dst
            (toI16 (toU16 (g.vm.regs dst) * 2 ^ (toU32 v % 16) % 65536))) }

/-- Mirror of `op_shr_const`: logical shift on the `u16` bit pattern,
shift amount masked to 4 bits in release mode. -/
def op_shr_const (g : GameState) : Option GameState :=
  match sfetch_u8 g with
  | none => none
  | some (dst, g) =>
      match sfetch_u16 g with
      | none => none
      | some (v, g) =>
          some { g with vm := vmSetReg g.vm dst (toI16 (toU16 (g.vm.regs dst) / 2 ^ (v % 16))) }

/-- Mirror of `op_call`: the overflow assert precedes the target fetch. -/
def op_call (g : GameState) : Option GameState :=
  if g.vm.sp < 64 then
    match sfetch_u16 g with
    | none => none
    | some (new_pc, g) =>
        some { g with vm := { g.vm with
          call_stack := fun i => if i = g.vm.sp then g.vm.pc else g.vm.call_stack i,
          pc := new_pc,
          sp := g.vm.sp + 1 } }
  else
    none

/-- Mirror of `op_ret`: the underflow assert, then pop. -/
def op_ret (g : GameState) : Option GameState :=
  if 0 < g.vm.sp then
    some { g with vm := { g.vm with
      sp := g.vm.sp - 1,
      pc := g.vm.call_stack (g.vm.sp - 1) } }
  else
    none

/-- Mirror of `op_jmp`. -/
def op_jmp (g : GameState) : Option GameState :=
  match sfetch_u16 g with
  | none => none
  | some (new_pc, g) => some { g with vm := { g.vm with pc := new_pc } }

/-- Mirror of `op_jmp_if_var`: decrement the register (wrapping) and jump
when it is non-zero. -/
def op_jmp_if_var (g : GameState) : Option GameState :=
  match sfetch_u8 g with
  | none => none
  | some (i, g) =>
      match sfetch_u16 g with
      | none => none
      | some (new_pc, g) =>
          if wrapI16 (g.vm.regs i - 1) ≠ 0 then
            some { g with vm := { vmSetReg g.vm i (wrapI16 (g.vm.regs i - 1)) with
              pc := new_pc } }
          else
            some { g with vm := vmSetReg g.vm i (wrapI16 (g.vm.regs i - 1)) }

/-- The comparison selection of `op_cond_jmp`; conditions 6 and 7 are the
`panic!` arm. -/
def condTest (op : Nat) (var arg : Int) : Option Bool :=
  if op &&& 7 = 0 then some (decide (var = arg))
  else if op &&& 7 = 1 then some (decide (var ≠ arg))
  else if op &&& 7 = 2 then some (decide (arg < var))
  else if op &&& 7 = 3 then some (decide (arg ≤ var))
  else if op &&& 7 = 4 then some (decide (var < arg))
  else if op &&& 7 = 5 then some (decide (var ≤ arg))
  else none

/-- Mirror of `fixup_pal_after_change_screen`. -/
def fixup_pal_after_change_screen (g : GameState) (screen : Int) : Option GameState :=
  if g.current_part = 16004 ∧ screen = 0x47 then load_pal_mem g 8
  else if g.current_part = 16006 ∧ screen = 0x4A then load_pal_mem g 1
  else some g

/-- The taken-jump tail of `op_cond_jmp` (after the pc update): track the
screen-number register and fix the palette up on a screen change. -/
def condJmpTaken (g : GameState) (var_id : Nat) (var : Int) : Option GameState :=
  if var_id = 0x67 ∧ g.screen_num ≠ some var then
    fixup_pal_after_change_screen { g with screen_num := some var } var
  else
    some g

/-- Branch resolution of `op_cond_jmp`. -/
def condJmpApply (g : GameState) (var_id : Nat) (var : Int) (test : Bool) (new_pc : Nat) :
    Option GameState :=
  if test then condJmpTaken { g with vm := { g.vm with pc := new_pc } } var_id var
  else some g

/-- Comparison plus the protection-bypass override of `op_cond_jmp`: a
register-operand compare of register `0x29` in part 16000 forces the test
true and plants the four symbol registers and the two counters. -/
def condJmpFinish (g : GameState) (op var_id : Nat) (var arg : Int) (new_pc : Nat) :
    Option GameState :=
  match condTest op var arg with
  | none => none
  | some test0 =>
      if var_id = 0x29 ∧ op &&& 0x80 ≠ 0 ∧ g.current_part = 16000 ∧
          g.bypass_protection = true then
        condJmpApply
          { g with vm := vmSetReg (vmSetReg (vmSetReg (vmSetReg (vmSetReg (vmSetReg g.vm
              0x29 (g.vm.regs 0x1E)) 0x2A (g.vm.regs 0x1F)) 0x2B (g.vm.regs 0x20))
              0x2C (g.vm.regs 0x21)) 0x32 6) 0x64 20 }
          var_id var true new_pc
      else
        condJmpApply g var_id var test0 new_pc

/-- The argument decoding of `op_cond_jmp`: register operand for bit 7,
immediate word for bit 6, immediate byte otherwise. -/
def condArgFetch (op : Nat) (g : GameState) : Option (Int × GameState) :=
  if op &&& 0x80 ≠ 0 then
    match sfetch_u8 g with
    | none => none
    | some (i, g) => some (g.vm.regs i, g)
  else if op &&& 0x40 ≠ 0 then sfetch_i16 g
  else
    match sfetch_u8 g with
    | none => none
    | some (b, g) => some ((b : Int), g)

/-- Mirror of `op_cond_jmp`: fetch the condition byte, the register id, the
immediate / register / word argument and the target. -/
def op_cond_jmp (g : GameState) : Option GameState :=
  match sfetch_u8 g with
  | none => none
  | some (op, g) =>
      match sfetch_u8 g with
      | none => none
      | some (var_id, g) =>
          match condArgFetch op g with
          | none => none
          | some (arg, g) =>
              match sfetch_u16 g with
              | none => none
              | some (new_pc, g) =>
                  condJmpFinish g op var_id (g.vm.regs var_id) arg new_pc

/-- Mirror of `op_install_task`: the task id is range-checked before the
target fetch; the pending slot's pc is set (frozen untouched). -/
def op_install_task (g : GameState) : Option GameState :=
  match sfetch_u8 g with
  | none => none
  | some (id, g) =>
      if id < 64 then
        match sfetch_u16 g with
        | none => none
        | some (pc, g) =>
            some { g with vm := { g.vm with pending_tasks := fun j =>
              if j = id then { g.vm.pending_tasks j with pc := pc }
              else (g.vm.pending_tasks j) } }
      else
        none

/-- Mirror of `op_remove_task`. -/
def op_remove_task (g : GameState) : Option GameState :=
  some { g with vm := { g.vm with pc := HALT_PC, needs_yield := true } }

/-- Mirror of `op_yield_task`. -/
def op_yield_task (g : GameState) : Option GameState :=
  some { g with vm := { g.vm with needs_yield := true } }

/-- The range update of `op_change_tasks`: action 2 schedules a halt
(pending pc `0xFFFE`), otherwise the frozen flag tracks `action != 0`. -/
def setPendingRange (v : VmState) (b e action : Nat) : VmState :=
  { v with pending_tasks := fun j =>
      if b ≤ j ∧ j ≤ e then
        (if action = 2 then { v.pending_tasks j with pc := PRE_HALT_PC }
         else { v.pending_tasks j with frozen := decide (action ≠ 0) })
      else (v.pending_tasks j) }

/-- Mirror of `op_change_tasks`: the begin id is range-checked as fetched,
the end id is masked with `0x3F` (so its own check cannot fire), and an
inverted range is logged and ignored. -/
def op_change_tasks (g : GameState) : Option GameState :=
  match sfetch_u8 g with
  | none => none
  | some (b, g) =>
      if b < 64 then
        match sfetch_u8 g with
        | none => none
        | some (e0, g) =>
            match sfetch_u8 g with
            | none => none
            | some (action, g) =>
                if e0 &&& 0x3F < b then some g
                else some { g with vm := setPendingRange g.vm b (e0 &&& 0x3F) action }
      else
        none

/-- Mirror of `op_select_page`. -/
def op_select_page (g : GameState) : Option GameState :=
  match sfetch_u8 g with
  | none => none
  | some (n, g) => some { g with video := select_page g.video n }

/-- Mirror of `op_fill_page`. -/
def op_fill_page (g : GameState) : Option GameState :=
  match sfetch_u8 g with
  | none => none
  | some (n, g) =>
      match sfetch_u8 g with
      | none => none
      | some (color, g) => some { g with video := fill_page g.video n color }

/-- Mirror of `op_copy_page`, passing the scroll register `0xF9`. -/
def op_copy_page (g : GameState) : Option GameState :=
  match sfetch_u8 g with
  | none => none
  | some (src, g) =>
      match sfetch_u8 g with
      | none => none
      | some (dst, g) =>
          match copy_page g.video src dst (g.vm.regs 0xF9) with
          | none => none
          | some v => some { g with video := v }

/-- Mirror of `op_change_pal`: the second operand is fetched and ignored;
palettes 10 and 16 of part 16001 are skipped under the pal-fixup flag. -/
def op_change_pal (g : GameState) : Option GameState :=
  match sfetch_u8 g with
  | none => none
  | some (num, g) =>
      match sfetch_u8 g with
      | none => none
      | some (_, g) =>
          if g.video.needs_pal_fixup = true ∧ g.current_part = 16001 ∧
              (num = 10 ∨ num = 16) then
            some g
          else
            some { g with next_pal := some num }

/-- Mirror of `op_draw_string`. -/
def op_draw_string (g : GameState) : Option GameState :=
  match sfetch_u16 g with
  | none => none
  | some (str_id, g) =>
      match sfetch_u8 g with
      | none => none
      | some (xi, g) =>
          match sfetch_u8 g with
          | none => none
          | some (ypos, g) =>
              match sfetch_u8 g with
              | none => none
              | some (color, g) =>
                  match draw_string g.video xi ypos str_id color with
                  | none => none
                  | some v => some { g with video := v }

/-- Mirror of `op_play_sound`. -/
def op_play_sound (g : GameState) : Option GameState :=
  match sfetch_u16 g with
  | none => none
  | some (resource, g) =>
      match sfetch_u8 g with
      | none => none
      | some (freq, g) =>
          match sfetch_u8 g with
          | none => none
          | some (volume, g) =>
              match sfetch_u8 g with
              | none => none
              | some (channel, g) => play_sound_shim g resource freq volume channel

/-- Mirror of `op_play_music`: resource 0 only re-times the current track. -/
def op_play_music (g : GameState) : Option GameState :=
  match sfetch_u16 g with
  | none => none
  | some (resource, g) =>
      match sfetch_u16 g with
      | none => none
      | some (delay, g) =>
          match sfetch_u8 g with
          | none => none
          | some (pos, g) =>
              if resource ≠ 0 then seek g resource delay pos
              else some { g with music := { g.music with delay := cvt_delay delay } }

/-- Mirror of `op_update_resources`: 0 stops the audio and flushes the
pager and the current palette number, part numbers stage a part switch,
anything else loads the entry. -/
def op_update_resources (g : GameState) : Option GameState :=
  match sfetch_u16 g with
  | none => none
  | some (num, g) =>
      if num = 0 then
        some { stop_sound_and_music g with
          mem := invalidate_res (stop_sound_and_music g).mem,
          video := { (stop_sound_and_music g).video with current_pal_num := none } }
      else if 16000 ≤ num then
        some { g with next_part := some num }
      else
        load_entry g num

/-- The pacing loop of `op_update_display`: one `produce_music` call per
pause slice (the wall-clock sleep in between has no game-visible state). -/
def produceMusicLoop : Nat → GameState → Option GameState
  | 0, g => some g
  | n + 1, g =>
      match produce_music g with
      | none => none
      | some g => produceMusicLoop n g

/-- The `next_pal.take()` staging of `op_update_display`: install the
swapped translation table and load any staged palette. -/
def stagePal (g : GameState) (v : VideoContext) : Option GameState :=
  match g.next_pal with
  | some num => load_pal_mem { g with video := v, next_pal := none } num
  | none => some { g with video := v, next_pal := none }

/-- Mirror of `op_update_display` proper. -/
def op_update_display (g : GameState) : Option GameState :=
  match sfetch_u8 g with
  | none => none
  | some (page, g) =>
      match stagePal g (swap_pages g.video page).1 with
      | none => none
      | some g1 =>
          (display_surface g1 (swap_pages g.video page).2).bind (fun g2 =>
            match produceMusicLoop (g2.vm.regs 0xFF).toNat g2 with
            | none => none
            | some g3 => some { g3 with vm := vmSetReg g3.vm 0xF7 0 })

/-- The high-opcode form of `op_draw_shape` after its three operand
fetches: clamp y to the last row (sliding x right by the overshoot), target
the first video segment and draw at zoom `0x40`. -/
def drawShapeHi (fuel offset xb yb : Nat) (g : GameState) : Option GameState :=
  draw_shape fuel { g with video := { g.video with dc := offset, use_seg2 := false } }
    (if (yb : Int) - 199 > 0 then (xb : Int) + ((yb : Int) - 199) else (xb : Int))
    (if (yb : Int) - 199 > 0 then 199 else (yb : Int))
    0x40 0xFF

/-- Common tail of the low-opcode form of `op_draw_shape`. -/
def drawShapeLoFin (fuel offset : Nat) (u : Bool) (x y : Int) (zoom : Nat) (g : GameState) :
    Option GameState :=
  draw_shape fuel { g with video := { g.video with dc := offset, use_seg2 := u } } x y zoom 0xFF

/-- The x-coordinate decoding of the low-opcode `op_draw_shape` form. -/
def shapeCoordX (opcode xb : Nat) (g : GameState) : Option (Int × GameState) :=
  if opcode &&& 0x20 = 0 then
    if opcode &&& 0x10 = 0 then
      match sfetch_u8 g with
      | none => none
      | some (lo, g) => some (toI16 (xb * 256 + lo), g)
    else some (g.vm.regs xb, g)
  else some (Int.ofNat (xb ||| ((opcode &&& 0x10) <<< 4)), g)

/-- The y-coordinate decoding of the low-opcode `op_draw_shape` form. -/
def shapeCoordY (opcode yb : Nat) (g : GameState) : Option (Int × GameState) :=
  if opcode &&& 0x08 = 0 then
    if opcode &&& 0x04 = 0 then
      match sfetch_u8 g with
      | none => none
      | some (lo, g) => some (toI16 (yb * 256 + lo), g)
    else some (g.vm.regs yb, g)
  else some ((yb : Int), g)

/-- Mirror of `op_draw_shape`: bit 7 of the opcode selects the short form
(offset from the opcode byte, byte coordinates clamped to the last row);
otherwise the opcode bits select immediate-word / register / byte forms for
x and y and the zoom source, un-fetching the zoom byte (`pc -= 1`, `u16`
wrap) for the fixed-zoom forms and switching to the second video segment
for the `0x03` zoom form. -/
def op_draw_shape (fuel opcode : Nat) (g : GameState) : Option GameState :=
  if opcode &&& 0x80 ≠ 0 then
    match sfetch_u8 g with
    | none => none
    | some (b, g) =>
        match sfetch_u8 g with
        | none => none
        | some (xb, g) =>
            match sfetch_u8 g with
            | none => none
            | some (yb, g) => drawShapeHi fuel ((opcode * 256 + b) * 2 % 65536) xb yb g
  else
    match sfetch_u16 g with
    | none => none
    | some (w, g) =>
        match sfetch_u8 g with
        | none => none
        | some (xb, g) =>
            match shapeCoordX opcode xb g with
            | none => none
            | some (x, g) =>
                match sfetch_u8 g with
                | none => none
                | some (yb, g) =>
                    match shapeCoordY opcode yb g with
                    | none => none
                    | some (y, g) =>
                        match sfetch_u8 g with
                        | none => none
                        | some (zb, g) =>
                            if opcode &&& 0x02 = 0 then
                              if opcode &&& 0x01 = 0 then
                                drawShapeLoFin fuel (w * 2 % 65536) false x y 0x40
                                  { g with vm := { g.vm with pc := (g.vm.pc + 65535) % 65536 } }
                              else
                                drawShapeLoFin fuel (w * 2 % 65536) false x y
                                  (toU16 (g.vm.regs zb)) g
                            else if opcode &&& 0x01 ≠ 0 then
                              drawShapeLoFin fuel (w * 2 % 65536) true x y 0x40
                                { g with vm := { g.vm with pc := (g.vm.pc + 65535) % 65536 } }
                            else
                              drawShapeLoFin fuel (w * 2 % 65536) false x y zb g

/-- The opcode dispatch of `execute_task`; an invalid low opcode is the
`panic!` arm. -/
def dispatchOp (fuel opcode : Nat) (g : GameState) : Option GameState :=
  if opcode &&& 0xC0 ≠ 0 then op_draw_shape fuel opcode g
  else if opcode = 0x00 then op_mov_const g
  else if opcode = 0x01 then op_mov g
  else if opcode = 0x02 then op_add g
  else if opcode = 0x03 then op_add_const g
  else if opcode = 0x04 then op_call g
  else if opcode = 0x05 then op_ret g
  else if opcode = 0x06 then op_yield_task g
  else if opcode = 0x07 then op_jmp g
  else if opcode = 0x08 then op_install_task g
  else if opcode = 0x09 then op_jmp_if_var g
  else if opcode = 0x0A then op_cond_jmp g
  else if opcode = 0x0B then op_change_pal g
  else if opcode = 0x0C then op_change_tasks g
  else if opcode = 0x0D then op_select_page g
  else if opcode = 0x0E then op_fill_page g
  else if opcode = 0x0F then op_copy_page g
  else if opcode = 0x10 then op_update_display g
  else if opcode = 0x11 then op_remove_task g
  else if opcode = 0x12 then op_draw_string g
  else if opcode = 0x13 then op_sub g
  else if opcode = 0x14 then op_and_const g
  else if opcode = 0x15 then op_or_const g
  else if opcode = 0x16 then op_shl_const g
  else if opcode = 0x17 then op_shr_const g
  else if opcode = 0x18 then op_play_sound g
  else if opcode = 0x19 then op_update_resources g
  else if opcode = 0x1A then op_play_music g
  else none

/-- Mirror of `execute_task`: dispatch opcodes until the yield flag is set.
The fuel also feeds the shape-drawing recursion. -/
def executeTask : Nat → GameState → Option GameState
  | 0, _ => none
  | fuel + 1, g =>
      if g.vm.needs_yield = true then some g
      else
        match sfetch_u8 g with
        | none => none
        | some (opcode, g) =>
            match dispatchOp fuel opcode g with
            | none => none
            | some g => executeTask fuel g

/-- Entry staging of one `run_tasks` iteration: copy the live pc into the
interpreter, reset the stack pointer and the yield flag. -/
def taskDispatch (g : GameState) (id : Nat) : GameState :=
  { g with vm := { g.vm with pc := (g.vm.tasks id).pc, sp := 0, needs_yield := false } }

/-- Exit staging of one `run_tasks` iteration: copy the interpreter pc back
into the live slot. -/
def taskWriteback (g : GameState) (id : Nat) : GameState :=
  { g with vm := { g.vm with tasks := fun j =>
      if j = id then { g.vm.tasks j with pc := g.vm.pc } else g.vm.tasks j } }

/-- The `for id in 0..TASK_COUNT` loop of `run_tasks`, also returning the
list of task ids that were actually executed (in order). A crashing task
ends the trace with a `none` final state. -/
def runTasksGo (efuel : Nat) : Nat → Nat → GameState → List Nat × Option GameState
  | _, 0, g => ([], some g)
  | id, n + 1, g =>
      if (g.vm.tasks id).pc = HALT_PC ∨ (g.vm.tasks id).frozen = true then
        runTasksGo efuel (id + 1) n g
      else
        match executeTask efuel (taskDispatch g id) with
        | none => ([id], none)
        | some g1 =>
            (id :: (runTasksGo efuel (id + 1) n (taskWriteback g1 id)).1,
              (runTasksGo efuel (id + 1) n (taskWriteback g1 id)).2)

/-- Mirror of `run_tasks` over the 64 task slots, with the interpreter fuel
as an explicit parameter (the source's `while` loop is unbounded; every
theorem quantifies over the fuel). -/
def run_tasks (efuel : Nat) (g : GameState) : List Nat × Option GameState :=
  runTasksGo efuel 0 64 g

/-- Fixture for the run-tasks claim: task 0 live at pc 0, all other slots
halted; the code segment holds the single yield opcode `0x06`. -/
def gC7 : GameState :=
  { mem := { list := [], data := [0x06],
             data_bak := 0, data_cur := 0, seg_code := 0, seg_video_pal := 0,
             seg_video1 := 0, seg_video2 := 0 },
    vm := { vm0 with tasks := fun j =>
      if j = 0 then { pc := 0, frozen := false } else TaskSlot.default },
    video := VideoContext.new,
    music := { delay := 0, samples_left := 0,
               channels := fun _ => Channel.default, track := Track.default },
    current_part := 0, next_part := none, screen_num := none, next_pal := none,
    looping_gun_quirk := false, bypass_protection := true, host := [],
    host_slots_free := 0, banks := fun _ _ => none }

/-- Fixture for the change-tasks claim: a three-byte operand stream with
begin 5 and end byte `0x41` (masking to 1 < 5); the pending table holds a
recognizable slot so the no-op is observable. -/
def gC8 : GameState :=
  { mem := { list := [], data := [5, 0x41, 2],
             data_bak := 0, data_cur := 0, seg_code := 0, seg_video_pal := 0,
             seg_video1 := 0, seg_video2 := 0 },
    vm := { vm0 with pending_tasks := fun j =>
      if j = 3 then { pc := 0x1234, frozen := true } else TaskSlot.default },
    video := VideoContext.new,
    music := { delay := 0, samples_left := 0,
               channels := fun _ => Channel.default, track := Track.default },
    current_part := 0, next_part := none, screen_num := none, next_pal := none,
    looping_gun_quirk := false, bypass_protection := true, host := [],
    host_slots_free := 0, banks := fun _ _ => none }

/-! ## Theorems -/

theorem next_bit_len {c : Ctx} {b : Bool} {c' : Ctx} (h : next_bit c = some (b, c')) :
    c'.len = c.len := by
  unfold next_bit at h
  split at h
  · split at h
    · exact absurd h (by simp)
    · injection h with h
      rw [Prod.mk.injEq] at h
      rw [← h.2]
  · injection h with h
    rw [Prod.mk.injEq] at h
    rw [← h.2]

theorem rdd1bits_len {count : Nat} {c : Ctx} {n : Nat} {c' : Ctx}
    (h : rdd1bits count c = some (n, c')) : c'.len = c.len := by
  induction count generalizing c n c' with
  | zero =>
      unfold rdd1bits at h
      injection h with h
      rw [Prod.mk.injEq] at h
      rw [← h.2]
  | succ k ih =>
      unfold rdd1bits at h
      split at h
      · exact absurd h (by simp)
      · rename_i b c1 hb
        split at h
        · exact absurd h (by simp)
        · rename_i out c2 hr
          injection h with h
          rw [Prod.mk.injEq] at h
          rw [← h.2]
          exact (ih hr).trans (next_bit_len hb)

theorem getd3chrWrite_len {k i : Nat} {c c' : Ctx} (h : getd3chrWrite k i c = some c') :
    c'.len = c.len := by
  induction k generalizing i c c' with
  | zero =>
      unfold getd3chrWrite at h
      injection h with h; subst h; rfl
  | succ k ih =>
      unfold getd3chrWrite at h
      split at h
      · exact absurd h (by simp)
      · rename_i byte c1 hr
        split at h
        · have hx := ih h
          have h2 : c1.len = c.len := rdd1bits_len hr
          exact hx.trans h2
        · exact absurd h (by simp)

theorem copyd3bytesWrite_len {off : Int} {k i : Nat} {c c' : Ctx}
    (h : copyd3bytesWrite off k i c = some c') : c'.len = c.len := by
  induction k generalizing i c c' with
  | zero =>
      unfold copyd3bytesWrite at h
      injection h with h; subst h; rfl
  | succ k ih =>
      unfold copyd3bytesWrite at h
      split at h
      · exact absurd h (by simp)
      · split at h
        · have hx := ih h
          exact hx
        · exact absurd h (by simp)

theorem adjust_len_lt {c : Ctx} {k : Nat} (hk : 1 ≤ k) (hc : c.len ≠ 0) :
    (c.adjust_len k).2.len < c.len := by
  unfold Ctx.adjust_len
  split <;> simp <;> omega

theorem getd3chr_len_lt {b i : Nat} {c c' : Ctx} (hc : c.len ≠ 0)
    (h : getd3chr b i c = some c') : c'.len < c.len := by
  unfold getd3chr at h
  split at h
  · exact absurd h (by simp)
  · rename_i n c1 hr
    split at h
    rename_i count c2 hadj
    split at h
    · exact absurd h (by simp)
    · rename_i c3 hw
      injection h with h
      subst h
      have h1 : c3.len = c2.len := getd3chrWrite_len hw
      have h2 : c2.len < c1.len := by
        have hx := adjust_len_lt (c := c1) (k := n + i + 1) (by omega)
          (by rw [rdd1bits_len hr]; exact hc)
        rw [hadj] at hx
        exact hx
      have h3 : c1.len = c.len := rdd1bits_len hr
      show c3.len < c.len
      omega

theorem copyd3bytes_len_lt {b k : Nat} {c c' : Ctx} (hk : 1 ≤ k) (hc : c.len ≠ 0)
    (h : copyd3bytes b k c = some c') : c'.len < c.len := by
  unfold copyd3bytes at h
  split at h
  rename_i count c1 hadj
  split at h
  · exact absurd h (by simp)
  · rename_i off c2 hr
    split at h
    · exact absurd h (by simp)
    · rename_i c3 hw
      injection h with h
      subst h
      have h1 : c3.len = c2.len := copyd3bytesWrite_len hw
      have h2 : c2.len = c1.len := rdd1bits_len hr
      have h3 : c1.len < c.len := by
        have hx := adjust_len_lt (c := c) (k := k) hk hc
        rw [hadj] at hx
        exact hx
      show c3.len < c.len
      omega

theorem unpackStep_len_lt {c c' : Ctx} (hc : c.len ≠ 0) (h : unpackStep c = some c') :
    c'.len < c.len := by
  unfold unpackStep at h
  split at h
  · exact absurd h (by simp)
  · rename_i c1 hb1
    have hp1 : c1.len = c.len := next_bit_len hb1
    split at h
    · exact absurd h (by simp)
    · rename_i c2 hb2
      have hne : c2.len ≠ 0 := by rw [next_bit_len hb2, hp1]; exact hc
      have hx := getd3chr_len_lt hne h
      rw [next_bit_len hb2, hp1] at hx
      exact hx
    · rename_i c2 hb2
      have hne : c2.len ≠ 0 := by rw [next_bit_len hb2, hp1]; exact hc
      have hx := copyd3bytes_len_lt (by omega) hne h
      rw [next_bit_len hb2, hp1] at hx
      exact hx
  · rename_i c1 hb1
    have hp1 : c1.len = c.len := next_bit_len hb1
    split at h
    · exact absurd h (by simp)
    · rename_i code c2 hb2
      have hp2 : c2.len = c.len := by rw [rdd1bits_len hb2, hp1]
      have hne : c2.len ≠ 0 := by rw [hp2]; exact hc
      split at h
      · have := copyd3bytes_len_lt (by omega) hne h
        omega
      · have := copyd3bytes_len_lt (by omega) hne h
        omega
      · split at h
        · exact absurd h (by simp)
        · rename_i n c3 hb3
          have hp3 : c3.len = c.len := by rw [rdd1bits_len hb3, hp2]
          have := copyd3bytes_len_lt (k := n + 1) (by omega) (by rw [hp3]; exact hc) h
          omega
      · have := getd3chr_len_lt hne h
        omega
theorem unpackLoop_no_fuelOut {fuel : Nat} {c : Ctx} (h : c.len < fuel) :
    unpackLoop fuel c ≠ UnpackResult.fuelOut := by
  induction fuel generalizing c with
  | zero => omega
  | succ fuel ih =>
      unfold unpackLoop
      by_cases hz : c.len = 0
      · rw [if_pos hz]
        split <;> simp
      · rw [if_neg hz]
        cases hs : unpackStep c with
        | none => simp
        | some c2 =>
            have := unpackStep_len_lt hz hs
            exact ih (by omega)

theorem unpackLoop_ok {fuel : Nat} {c c' : Ctx} (h : unpackLoop fuel c = UnpackResult.ok c') :
    c'.len = 0 ∧ c'.crc = 0 := by
  induction fuel generalizing c with
  | zero => exact absurd h (by simp [unpackLoop])
  | succ fuel ih =>
      unfold unpackLoop at h
      by_cases hz : c.len = 0
      · rw [if_pos hz] at h
        by_cases hcrc : c.crc = 0
        · rw [if_pos hcrc] at h
          injection h with h; subst h; exact ⟨hz, hcrc⟩
        · rw [if_neg hcrc] at h
          exact absurd h (by simp)
      · rw [if_neg hz] at h
        cases hs : unpackStep c with
        | none => rw [hs] at h; exact absurd h (by simp)
        | some c2 => rw [hs] at h; exact ih h

/-- C2: for every input `(buf, packed_len)`, `unpack` terminates (the fuel
bound `unpacked_len + 1` is never exhausted), and whenever it returns normally
the remaining length is 0 and the running crc is 0; a crc mismatch can only
produce the fatal `corrupt` outcome, never a normal return. -/
theorem unpack_schema_ok (buf : List Nat) (packed_len : Nat) :
    unpack buf packed_len ≠ UnpackResult.fuelOut ∧
    (∀ c, unpack buf packed_len = UnpackResult.ok c → c.len = 0 ∧ c.crc = 0) := by
  constructor
  · unfold unpack
    split
    · simp
    · split
      · split
        · simp
        · split
          · simp
          · exact unpackLoop_no_fuelOut (Nat.lt_succ_self _)
      · simp
  · intro c h
    unfold unpack at h
    split at h
    · exact absurd h (by simp)
    · split at h
      · split at h
        · exact absurd h (by simp)
        · split at h
          · exact absurd h (by simp)
          · exact unpackLoop_ok h
      · exact absurd h (by simp)

/-- Closed witness for C2: the concrete well-formed one-literal stream `wBuf`
satisfies the hypotheses of `unpack_schema_ok` and decompresses with
`remaining = 0` and `crc = 0`. -/
theorem unpack_schema_ok_witness :
    unpack wBuf 16 ≠ UnpackResult.fuelOut ∧ wCtx.len = 0 ∧ wCtx.crc = 0 :=
  ⟨(unpack_schema_ok wBuf 16).1, (unpack_schema_ok wBuf 16).2 wCtx rfl⟩

/-- C1 (code bug): when a literal run requests more bytes than remain,
`Ctx::adjust_len` returns `count - remaining` instead of `remaining`, so the
run copies the wrong number of bytes. On `bufC1` (remaining = 2, run of 3) the
decoder copies a single byte: output byte 0 keeps its filler value 0x55 even
though 2 bytes remained to be produced. -/
theorem bytekiller_truncation_bug :
    (Ctx.adjust_len
      { buf := [], dst_pos := 0, src_pos := 0, len := 2, crc := 0, bits := 0 } 3).1 = 1 ∧
    unpack bufC1 14 = UnpackResult.ok ctxC1 ∧
    ctxC1.buf[0]? = some 0x55 ∧ ctxC1.len = 0 :=
  ⟨rfl, rfl, rfl, rfl⟩


theorem drawSpan_quad {c : Nat} (s : SoftState) (hy : Int) (h16 : c ≠ 0x10) (h17 : c ≠ 0x11) :
    drawSpan c 0 s 688127 3309568 hy = drawHLineColor s 0 (hy * 320 + 10).toNat 41 c := by
  have h1 : toI16 (688127 / 65536) = 10 := by decide
  have h2 : toI16 (3309568 / 65536) = 50 := by decide
  unfold drawSpan
  rw [h1, h2]
  norm_num [imin, imax]
  unfold drawHLineSel
  rw [if_neg (by omega), if_neg (by omega)]
  rfl

theorem stripLoop_quad {c : Nat} (h16 : c ≠ 0x10) (h17 : c ≠ 0x11) :
    ∀ (h : Nat) (s : SoftState) (hy : Int), 0 ≤ hy → hy + h ≤ 199 →
    stripLoop c 0 0 0 h s 688127 3309568 hy =
      (paintRows c s hy h, 688127, 3309568, hy + h, false) := by
  intro h
  induction h with
  | zero =>
      intro s hy h0 hb
      unfold stripLoop paintRows
      norm_num
  | succ h ih =>
      intro s hy h0 hb
      unfold stripLoop
      rw [if_pos h0, drawSpan_quad s hy h16 h17]
      rw [if_neg (by omega)]
      have hw1 : wadd32 688127 0 = 688127 := by decide
      have hw2 : wadd32 3309568 0 = 3309568 := by decide
      rw [hw1, hw2]
      rw [ih _ (hy + 1) (by omega) (by omega)]
      push_cast
      rw [show hy + ((h : Int) + 1) = hy + 1 + (h : Int) from by ring]
      rfl

theorem draw_polygon_quad (c : Nat) (s : SoftState) (h16 : c ≠ 0x10) (h17 : c ≠ 0x11) :
    draw_polygon s 0 stripQS c = some (paintRows c s 10 20) := by
  have hstrip := stripLoop_quad h16 h17 20 s 10 (by norm_num) (by norm_num)
  unfold draw_polygon
  rw [if_neg (by decide)]
  rw [show stripQS[0]? = some { x := 50, y := 10 } from rfl]
  rw [show stripQS[stripQS.length - 1]? = some { x := 10, y := 10 } from rfl]
  show polyLoop c 0 stripQS 4 s 1 2 655360 3276800 10 4 = some (paintRows c s 10 20)
  unfold polyLoop
  norm_num
  rw [show stripQS[3]? = some { x := 10, y := 10 } from rfl,
      show stripQS[2]? = some { x := 10, y := 30 } from rfl,
      show stripQS[0]? = some { x := 50, y := 10 } from rfl,
      show stripQS[1]? = some { x := 50, y := 30 } from rfl]
  dsimp only []
  rw [show calcStep { x := 10, y := 10 } { x := 10, y := 30 } = (0, 20) from rfl,
      show calcStep { x := 50, y := 10 } { x := 50, y := 30 } = (0, 20) from rfl]
  norm_num
  rw [hstrip]
  dsimp only []
  unfold polyLoop
  norm_num

theorem paintRows_pal (c : Nat) : ∀ (h : Nat) (s : SoftState) (hy : Int),
    (paintRows c s hy h).pal = s.pal := by
  intro h
  induction h with
  | zero => intro s hy; rfl
  | succ h ih => intro s hy; unfold paintRows; rw [ih]; rfl

theorem paintRows_fb (c : Nat) : ∀ (h : Nat) (hy : Int) (s : SoftState) (p i : Nat), 0 ≤ hy →
    (paintRows c s hy h).fb p i =
      if p = 0 ∧ hy.toNat ≤ i / 320 ∧ i / 320 < hy.toNat + h ∧ 10 ≤ i % 320 ∧ i % 320 < 51
      then c else s.fb p i := by
  intro h
  induction h with
  | zero =>
      intro hy s p i h0
      rw [if_neg (by omega)]
      rfl
  | succ h ih =>
      intro hy s p i h0
      unfold paintRows
      rw [ih (hy + 1) _ p i (by omega)]
      show (if p = 0 ∧ (hy + 1).toNat ≤ i / 320 ∧ i / 320 < (hy + 1).toNat + h ∧
              10 ≤ i % 320 ∧ i % 320 < 51 then c
            else if p = 0 ∧ (hy * 320 + 10).toNat ≤ i ∧ i < (hy * 320 + 10).toNat + 41
              then c else s.fb p i) = _
      split_ifs with hA hB hC hD <;> first | rfl | omega

theorem countPixels_congr {s t : SoftState} {page c : Nat}
    (h : ∀ y x, y < SCR_H → x < SCR_W → s.fb page (y * SCR_W + x) = t.fb page (y * SCR_W + x)) :
    countPixels s page c = countPixels t page c := by
  unfold countPixels
  have hmap : (List.range SCR_H).map (countRow s page c) =
      (List.range SCR_H).map (countRow t page c) := by
    refine List.map_congr_left (fun y hy => ?_)
    unfold countRow
    refine List.countP_congr (fun x hx => ?_)
    rw [h y x (List.mem_range.mp hy) (List.mem_range.mp hx)]
  rw [hmap]

theorem countPixels_paintRows (c : Nat) :
    countPixels (paintRows c zeroState 10 20) 0 c = countPixels (rectState c) 0 c := by
  refine countPixels_congr (fun y x hy hx => ?_)
  rw [paintRows_fb c 20 10 zeroState 0 (y * SCR_W + x) (by norm_num)]
  show _ = (rectState c).fb 0 (y * SCR_W + x)
  unfold rectState zeroState SoftState.new SCR_W at *
  dsimp only []
  split_ifs <;> first | rfl | omega

theorem czero : countPixels zeroState 0 7 = 0 := by
  unfold countPixels
  have h : ∀ y ∈ List.range SCR_H, countRow zeroState 0 7 y = 0 := by
    intro y _
    unfold countRow
    apply List.countP_eq_zero.mpr
    intro x _
    simp [zeroState, SoftState.new]
  rw [List.map_congr_left h]
  simp

theorem countRow_rect (y : Nat) :
    countRow (rectState 7) 0 7 y = if 10 ≤ y ∧ y < 30 then 41 else 0 := by
  unfold countRow rectState
  dsimp only []
  by_cases hc : 10 ≤ y ∧ y < 30
  · rw [if_pos hc]
    have hcong : ∀ x ∈ List.range SCR_W,
        ((if (0:Nat) = 0 ∧ 10 ≤ (y * SCR_W + x) / 320 ∧ (y * SCR_W + x) / 320 < 30 ∧
            10 ≤ (y * SCR_W + x) % 320 ∧ (y * SCR_W + x) % 320 < 51
          then 7 else (0:Nat)) == 7) = decide (10 ≤ x ∧ x < 51) := by
      intro x hx
      have hx320 : x < 320 := List.mem_range.mp hx
      have hdiv : (y * SCR_W + x) / 320 = y := by unfold SCR_W; omega
      have hmod : (y * SCR_W + x) % 320 = x := by unfold SCR_W; omega
      rw [hdiv, hmod]
      by_cases hr : 10 ≤ x ∧ x < 51
      · rw [if_pos ⟨rfl, hc.1, hc.2, hr.1, hr.2⟩, decide_eq_true hr]
        rfl
      · rw [if_neg (by tauto), decide_eq_false hr]
        rfl
    rw [List.countP_congr (fun x hx => by rw [hcong x hx])]
    decide
  · rw [if_neg hc]
    apply List.countP_eq_zero.mpr
    intro x hx
    have hx320 : x < 320 := List.mem_range.mp hx
    have hdiv : (y * SCR_W + x) / 320 = y := by unfold SCR_W; omega
    have hmod : (y * SCR_W + x) % 320 = x := by unfold SCR_W; omega
    rw [hdiv, hmod]
    rw [if_neg (by tauto)]
    simp

set_option maxRecDepth 4000 in
theorem crect : countPixels (rectState 7) 0 7 = 820 := by
  unfold countPixels
  rw [List.map_congr_left (fun y _ => countRow_rect y)]
  decide

theorem draw_polygon_claim_order_eval : draw_polygon zeroState 0 claimQS 7 = some zeroState := by
  unfold draw_polygon
  rw [if_neg (by decide)]
  rw [show claimQS[0]? = some { x := 10, y := 10 } from rfl]
  rw [show claimQS[claimQS.length - 1]? = some { x := 10, y := 30 } from rfl]
  show polyLoop 7 0 claimQS 4 zeroState 1 2 655360 655360 10 4 = some zeroState
  unfold polyLoop
  norm_num
  rw [show claimQS[3]? = some { x := 10, y := 30 } from rfl,
      show claimQS[2]? = some { x := 50, y := 30 } from rfl,
      show claimQS[0]? = some { x := 10, y := 10 } from rfl,
      show claimQS[1]? = some { x := 50, y := 10 } from rfl]
  dsimp only []
  rw [show calcStep { x := 10, y := 10 } { x := 50, y := 10 } = (2621440, 0) from rfl]
  norm_num
  unfold polyLoop
  norm_num

/-- C4 counterexample: drawing the quad with vertices (10,10), (50,10),
(50,30), (10,30) in exactly that order, color 7, on an all-zero framebuffer
leaves 0 pixels equal to 7 (the single quad strip pairs the two horizontal
edges, whose height is 0), not 861 as claimed. -/
theorem scenario4_claim_order_counterexample :
    (draw_polygon zeroState 0 claimQS 7).map (fun s => countPixels s 0 7) = some 0 ∧
    (0 : Nat) ≠ 861 := by
  constructor
  · rw [draw_polygon_claim_order_eval]
    show some (countPixels zeroState 0 7) = some 0
    rw [czero]
  · decide

/-- C4 amended: with the same four corners ordered the way the quad-strip
rasterizer pairs edges, (50,10), (50,30), (10,30), (10,10), the draw fills
rows 10-29 across columns 10-50: exactly 820 = 41 * 20 pixels equal 7 (the
rasterizer draws `dy` scanlines per strip, so row 30 is not drawn and the
count is not the inclusive-box 861). -/
theorem scenario4_amended :
    (draw_polygon zeroState 0 stripQS 7).map (fun s => countPixels s 0 7) = some 820 := by
  rw [draw_polygon_quad 7 zeroState (by decide) (by decide)]
  show some (countPixels (paintRows 7 zeroState 10 20) 0 7) = some 820
  rw [countPixels_paintRows, crect]

/-- C5: `swap_pages 0xFE` leaves the translation table unchanged;
`swap_pages 0xFF` swaps the front and back slots and applying it twice
restores the state; any other argument sets the front slot to
`translate_page n`; and in every case the returned value is the new front
framebuffer index `fb_xlat[1]`. -/
theorem swap_pages_spec (v : VideoContext) (n : Nat) :
    swap_pages v 0xFE = (v, v.xlat1) ∧
    (swap_pages v 0xFF).1 = { v with xlat1 := v.xlat2, xlat2 := v.xlat1 } ∧
    (swap_pages (swap_pages v 0xFF).1 0xFF).1 = v ∧
    (n ≠ 0xFE → n ≠ 0xFF → (swap_pages v n).1 = { v with xlat1 := translate_page v n }) ∧
    (swap_pages v n).2 = (swap_pages v n).1.xlat1 := by
  refine ⟨by norm_num [swap_pages], by norm_num [swap_pages], by norm_num [swap_pages], ?_, ?_⟩
  · intro h1 h2
    unfold swap_pages
    rw [if_pos h1, if_neg h2]
  · unfold swap_pages
    split_ifs <;> rfl

/-- Closed witness for C5 at the fresh video context and page 1. -/
theorem swap_pages_spec_witness :
    (swap_pages VideoContext.new 1).1 =
      { VideoContext.new with xlat1 := translate_page VideoContext.new 1 } ∧
    swap_pages VideoContext.new 0xFE = (VideoContext.new, VideoContext.new.xlat1) :=
  ⟨(swap_pages_spec VideoContext.new 1).2.2.2.1 (by decide) (by decide),
   (swap_pages_spec VideoContext.new 1).1⟩

/-- C3 (code bug): for `copy_page` with a bit-7 source and `vscroll = 1`,
the code copies `(200 - 1) * 320 = 63680` bytes but from offset 0 of the
source page to offset 0 of the destination page — the `src.add`/`dst.add`
pointer offsets computed in `copy_fb` are discarded. With fb0 all 7 and fb1
all 0, dst byte 0 becomes 7 and dst byte 63999 stays 0; the claimed
write-offset behavior would give the opposite. The `|vscroll| > 199` no-op
part does hold. -/
theorem copy_page_scroll_offsets_discarded :
    (copy_page cx3 0x80 1 1).map (fun v => (v.rndr.fb 1 0, v.rndr.fb 1 63999)) = some (7, 0) ∧
    copy_page cx3 0x80 1 200 = some cx3 ∧
    copyFbCount 1 = 63680 := by
  refine ⟨rfl, rfl, by decide⟩

theorem readPixelsGo_none {s : SoftState} {fb : Nat} :
    ∀ (idxs : List Nat) (i : Nat), i ∈ idxs → s.pal[s.fb fb i]? = none →
      readPixelsGo s fb idxs = none := by
  intro idxs
  induction idxs with
  | nil => intro i h; simp at h
  | cons a rest ih =>
      intro i hmem hnone
      unfold readPixelsGo
      rcases List.mem_cons.mp hmem with h | h
      · subst h
        rw [hnone]
      · cases ha : s.pal[s.fb fb a]? with
        | none => rfl
        | some c => rw [ih i h hnone]

theorem read_pixels_high_none {s : SoftState} {fb i : Nat} (hi : i < FB_SIZE)
    (hpal : s.pal.length = 16) (hge : 16 ≤ s.fb fb i) : read_pixels s fb = none := by
  unfold read_pixels
  refine readPixelsGo_none (List.range FB_SIZE) i (List.mem_range.mpr hi) ?_
  apply List.getElem?_eq_none
  omega

/-- C10: `read_pixels` indexes the 16-entry palette with the full
framebuffer byte and panics (returns `none`) whenever some pixel is >= 16;
such pixels are reachable: `fill_page` stores its color byte unmasked into
every pixel, the solid h-line writer `draw_h_line_color` stores its color
byte unmasked, and a polygon drawn with any color `c >= 16` other than the
two special codes 0x10/0x11 makes the readback of page 0 panic. -/
theorem read_pixels_panics_on_high_pixel :
    (∀ (s : SoftState) (fb i : Nat), i < FB_SIZE → s.pal.length = 16 → 16 ≤ s.fb fb i →
        read_pixels s fb = none) ∧
    (∀ (v : VideoContext) (n color : Nat), 16 ≤ color → v.rndr.pal.length = 16 →
        read_pixels (fill_page v n color).rndr (translate_page v n) = none) ∧
    (∀ (s : SoftState) (fb offset w color : Nat), 0 < w →
        (drawHLineColor s fb offset w color).fb fb offset = color) ∧
    (∀ c : Nat, 16 ≤ c → c ≠ 0x10 → c ≠ 0x11 →
        (draw_polygon zeroState 0 stripQS c).map (fun r => read_pixels r 0) = some none) := by
  refine ⟨fun s fb i hi hp hg => read_pixels_high_none hi hp hg, ?_, ?_, ?_⟩
  · intro v n color hc hp
    refine read_pixels_high_none (i := 0) (by decide) ?_ ?_
    · exact hp
    · show 16 ≤ (clear_fb v.rndr (translate_page v n) color).fb (translate_page v n) 0
      unfold clear_fb
      dsimp only []
      rw [if_pos ⟨rfl, by decide⟩]
      exact hc
  · intro s fb offset w color hw
    unfold drawHLineColor
    dsimp only []
    rw [if_pos ⟨rfl, Nat.le_refl _, by omega⟩]
  · intro c hc h16 h17
    rw [draw_polygon_quad c zeroState h16 h17]
    show some (read_pixels (paintRows c zeroState 10 20) 0) = some none
    rw [read_pixels_high_none (i := 3210) (by decide) ?_ ?_]
    · rw [paintRows_pal]
      decide
    · rw [paintRows_fb c 20 10 zeroState 0 3210 (by norm_num)]
      rw [if_pos ⟨rfl, by decide, by decide, by decide, by decide⟩]
      exact hc

/-- Closed witness for C10: filling a page with color 0x21 makes readback
panic, and the solid h-line writer stores 0x3F (a shape-data color) as-is. -/
theorem read_pixels_panics_witness :
    read_pixels (fill_page VideoContext.new 0 0x21).rndr (translate_page VideoContext.new 0) =
      none ∧
    (drawHLineColor zeroState 0 0 1 0x3F).fb 0 0 = 0x3F :=
  ⟨read_pixels_panics_on_high_pixel.2.1 VideoContext.new 0 0x21 (by decide) (by decide),
   read_pixels_panics_on_high_pixel.2.2.1 zeroState 0 0 1 0x3F (by decide)⟩


/-- C6: `invalidate_res` rewinds `data_cur` to `data_bak` and maps every
entry with `kind <= 2 || kind > 6` to the same entry with status Empty,
while entries with kinds 3..=6 are returned completely unchanged (status,
address and every other field). -/
theorem invalidate_res_spec (m : Memory) :
    (invalidate_res m).data_cur = m.data_bak ∧
    (∀ (i : Nat) (e : MemEntry), m.list[i]? = some e →
      ((e.kind ≤ 2 ∨ 6 < e.kind →
          (invalidate_res m).list[i]? = some { e with status := STATUS_EMPTY }) ∧
       (2 < e.kind → e.kind ≤ 6 → (invalidate_res m).list[i]? = some e))) := by
  refine ⟨rfl, ?_⟩
  intro i e he
  have hmap : (invalidate_res m).list[i]? =
      (m.list[i]?).map (fun e =>
        if e.kind ≤ 2 ∨ 6 < e.kind then { e with status := STATUS_EMPTY } else e) := by
    unfold invalidate_res
    exact List.getElem?_map _ _ _
  constructor
  · intro hk
    rw [hmap, he]
    show some (if e.kind ≤ 2 ∨ 6 < e.kind then { e with status := STATUS_EMPTY } else e) =
      some { e with status := STATUS_EMPTY }
    rw [if_pos hk]
  · intro h2 h6
    rw [hmap, he]
    show some (if e.kind ≤ 2 ∨ 6 < e.kind then { e with status := STATUS_EMPTY } else e) =
      some e
    rw [if_neg (by omega)]

/-- Closed witness for C6 on `memC6`: the kind-2 entry is emptied, the
kind-4 entry survives byte for byte, and `data_cur` rewinds to 3. -/
theorem invalidate_res_spec_witness :
    (invalidate_res memC6).data_cur = memC6.data_bak ∧
    (invalidate_res memC6).list[0]? = some { entryBitmap with status := STATUS_EMPTY } ∧
    (invalidate_res memC6).list[1]? = some entryCode :=
  ⟨(invalidate_res_spec memC6).1,
   ((invalidate_res_spec memC6).2 0 entryBitmap rfl).1 (by decide),
   ((invalidate_res_spec memC6).2 1 entryCode rfl).2 (by decide) (by decide)⟩

/-- C9 (code bug): on the concrete fixture `g9` with a four-sample output
buffer, `mix_samples` produces the raw mixed frames [25344, 0, 25344, 0];
the `nr` smoothing pass, which would turn them into [0, 0, 0, 0], is only
applied to the empty leftover of the consumed output slice, so the frames
handed to the host are not the smoothed ones. -/
theorem mix_samples_unsmoothed :
    (mix_samples g9 [0, 0, 0, 0]).map (fun r => r.2) = some [25344, 0, 25344, 0] ∧
    nr [25344, 0, 25344, 0] = [0, 0, 0, 0] ∧
    nr [25344, 0, 25344, 0] ≠ [25344, 0, 25344, 0] :=
  ⟨by decide, by decide, by decide⟩

/-! ### Live-task-table preservation through the interpreter -/

/-- `vmSetReg` leaves the live task table alone. -/
theorem vmSetReg_tasks (v : VmState) (i : Nat) (x : Int) :
    (vmSetReg v i x).tasks = v.tasks := rfl

/-- Script fetches only move the program counter. -/
theorem sfetch_u8_tasks (g : GameState) (p : Nat × GameState)
    (h : sfetch_u8 g = some p) : p.2.vm.tasks = g.vm.tasks := by
  unfold sfetch_u8 at h
  split at h
  · exact Option.noConfusion h
  · injection h with h
    subst h
    rfl

/-- Word fetches only move the program counter. -/
theorem sfetch_u16_tasks (g : GameState) (p : Nat × GameState)
    (h : sfetch_u16 g = some p) : p.2.vm.tasks = g.vm.tasks := by
  unfold sfetch_u16 at h
  split at h
  · exact Option.noConfusion h
  · rename_i hi g1 h1
    split at h
    · exact Option.noConfusion h
    · rename_i lo g2 h2
      injection h with h
      subst h
      exact (sfetch_u8_tasks g1 (lo, g2) h2).trans (sfetch_u8_tasks g (hi, g1) h1)

/-- Signed word fetches only move the program counter. -/
theorem sfetch_i16_tasks (g : GameState) (p : Int × GameState)
    (h : sfetch_i16 g = some p) : p.2.vm.tasks = g.vm.tasks := by
  unfold sfetch_i16 at h
  split at h
  · exact Option.noConfusion h
  · rename_i w g1 h1
    injection h with h
    subst h
    exact sfetch_u16_tasks g (w, g1) h1

/-- Video fetches only move the video data counter. -/
theorem vfetch_u8_tasks (g : GameState) (p : Nat × GameState)
    (h : vfetch_u8 g = some p) : p.2.vm.tasks = g.vm.tasks := by
  unfold vfetch_u8 at h
  split at h
  · exact Option.noConfusion h
  · injection h with h
    subst h
    rfl

/-- Video word fetches only move the video data counter. -/
theorem vfetch_u16_tasks (g : GameState) (p : Nat × GameState)
    (h : vfetch_u16 g = some p) : p.2.vm.tasks = g.vm.tasks := by
  unfold vfetch_u16 at h
  split at h
  · exact Option.noConfusion h
  · rename_i hi g1 h1
    split at h
    · exact Option.noConfusion h
    · rename_i lo g2 h2
      injection h with h
      subst h
      exact (vfetch_u8_tasks g1 (lo, g2) h2).trans (vfetch_u8_tasks g (hi, g1) h1)

/-- Dimension fetches only move the video data counter. -/
theorem fetch_dim_tasks (g : GameState) (zoom : Nat) (p : Int × GameState)
    (h : fetch_dim g zoom = some p) : p.2.vm.tasks = g.vm.tasks := by
  unfold fetch_dim at h
  split at h
  · exact Option.noConfusion h
  · rename_i b g1 h1
    split at h
    · injection h with h
      subst h
      exact vfetch_u8_tasks g (b, g1) h1
    · exact Option.noConfusion h

/-- Palette loading does not touch the interpreter state. -/
theorem load_pal_mem_tasks (g : GameState) (num : Nat) (g' : GameState)
    (h : load_pal_mem g num = some g') : g'.vm.tasks = g.vm.tasks := by
  unfold load_pal_mem at h
  split at h
  · split at h
    · exact Option.noConfusion h
    · injection h with h
      subst h
      rfl
  · injection h with h
    subst h
    rfl

/-- Stopping one channel only records a host event. -/
theorem stop_sound_tasks (g : GameState) (c : Nat) :
    (stop_sound g c).vm.tasks = g.vm.tasks := rfl

/-- Stopping everything only records host events and re-times the music. -/
theorem stop_sound_and_music_tasks (g : GameState) :
    (stop_sound_and_music g).vm.tasks = g.vm.tasks := rfl

/-- The host play call only records events. -/
theorem host_play_sound_tasks (g : GameState) (channel freq volume addr len : Nat)
    (loops : Int) (g' : GameState) (h : host_play_sound g channel freq volume addr len loops =
      some g') : g'.vm.tasks = g.vm.tasks := by
  unfold host_play_sound at h
  split at h
  · exact Option.noConfusion h
  · split at h
    · split at h
      · exact Option.noConfusion h
      · split at h
        · exact Option.noConfusion h
        · injection h with h
          subst h
          rfl
    · exact Option.noConfusion h

/-- `sfx::play_sound` only records events. -/
theorem sfx_play_sound_tasks (g : GameState) (channel address freq volume : Nat)
    (g' : GameState) (h : sfx_play_sound g channel address freq volume = some g') :
    g'.vm.tasks = g.vm.tasks := by
  unfold sfx_play_sound at h
  split at h
  · split at h
    · rename_i len0 loop0
      split at h
      · exact host_play_sound_tasks g channel freq volume (address + 8) _ _ g' h
      · exact Option.noConfusion h
    · exact Option.noConfusion h
  · exact Option.noConfusion h

/-- The play-sound shim preserves the live task table. -/
theorem play_sound_shim_tasks (g : GameState) (resource freq volume channel : Nat)
    (g' : GameState) (h : play_sound_shim g resource freq volume channel = some g') :
    g'.vm.tasks = g.vm.tasks := by
  unfold play_sound_shim at h
  split at h
  · injection h with h
    subst h
    rfl
  · split at h
    · injection h with h
      subst h
      rfl
    · rename_i address ha
      split at h
      · exact Option.noConfusion h
      · rename_i f hf
        exact sfx_play_sound_tasks g (channel &&& 3) address f (nmin volume 0x3F) g' h

/-- `sfx::seek` installs a new track but leaves the interpreter alone. -/
theorem seek_tasks (g : GameState) (res_num delay cur_order : Nat) (g' : GameState)
    (h : seek g res_num delay cur_order = some g') : g'.vm.tasks = g.vm.tasks := by
  unfold seek at h
  split at h
  · injection h with h
    subst h
    rfl
  · split at h
    · split at h
      · exact Option.noConfusion h
      · split at h
        · split at h
          · exact Option.noConfusion h
          · split at h
            · exact Option.noConfusion h
            · injection h with h
              subst h
              rfl
        · exact Option.noConfusion h
    · exact Option.noConfusion h

/-- Channel mixing only touches the music state. -/
theorem mix_channel_tasks (g : GameState) (i : Nat) (x : Int) (p : Int × GameState)
    (h : mix_channel g i x = some p) : p.2.vm.tasks = g.vm.tasks := by
  unfold mix_channel at h
  split at h
  · exact Option.noConfusion h
  · injection h with h
    subst h
    rfl

/-- A pattern event writes a channel or the music-sync register. -/
theorem handle_pattern_tasks (g : GameState) (channel address : Nat) (g' : GameState)
    (h : handle_pattern g channel address = some g') : g'.vm.tasks = g.vm.tasks := by
  unfold handle_pattern at h
  split at h
  · rename_i note1 note2
    split at h
    · injection h with h
      subst h
      rfl
    · split at h
      · exact Option.noConfusion h
      · injection h with h
        subst h
        rfl
  · exact Option.noConfusion h

/-- One tick of pattern events preserves the live task table. -/
theorem process_events_tasks (g : GameState) (g' : GameState)
    (h : process_events g = some g') : g'.vm.tasks = g.vm.tasks := by
  unfold process_events at h
  split at h
  · exact Option.noConfusion h
  · rename_i order horder
    split at h
    · exact Option.noConfusion h
    · rename_i g1 h1
      split at h
      · exact Option.noConfusion h
      · rename_i g2 h2
        split at h
        · exact Option.noConfusion h
        · rename_i g3 h3
          split at h
          · exact Option.noConfusion h
          · rename_i g4 h4
            injection h with h
            subst h
            have t4 : g4.vm.tasks = g3.vm.tasks := handle_pattern_tasks g3 _ _ g4 h4
            have t3 : g3.vm.tasks = g2.vm.tasks := handle_pattern_tasks g2 _ _ g3 h3
            have t2 : g2.vm.tasks = g1.vm.tasks := handle_pattern_tasks g1 _ _ g2 h2
            have t1 : g1.vm.tasks = g.vm.tasks := handle_pattern_tasks g _ _ g1 h1
            exact (t4.trans t3).trans (t2.trans t1)

/-- Frame production preserves the live task table. -/
theorem mixFrames_tasks :
    ∀ (count : Nat) (g : GameState) (p : GameState × List Int),
      mixFrames count g = some p → p.1.vm.tasks = g.vm.tasks := by
  intro count
  induction count with
  | zero =>
      intro g p h
      unfold mixFrames at h
      injection h with h
      subst h
      rfl
  | succ count ih =>
      intro g p h
      unfold mixFrames at h
      split at h
      · exact Option.noConfusion h
      · rename_i s1 g1 h1
        split at h
        · exact Option.noConfusion h
        · rename_i left g2 h2
          split at h
          · exact Option.noConfusion h
          · rename_i s2 g3 h3
            split at h
            · exact Option.noConfusion h
            · rename_i right g4 h4
              split at h
              · exact Option.noConfusion h
              · rename_i g5 rest h5
                injection h with h
                subst h
                have t5 : g5.vm.tasks = g4.vm.tasks := ih g4 (g5, rest) h5
                have t4 : g4.vm.tasks = g3.vm.tasks := mix_channel_tasks g3 2 s2 (right, g4) h4
                have t3 : g3.vm.tasks = g2.vm.tasks := mix_channel_tasks g2 1 0 (s2, g3) h3
                have t2 : g2.vm.tasks = g1.vm.tasks := mix_channel_tasks g1 3 s1 (left, g2) h2
                have t1 : g1.vm.tasks = g.vm.tasks := mix_channel_tasks g 0 0 (s1, g1) h1
                exact t5.trans (t4.trans (t3.trans (t2.trans t1)))

/-- The mixing loop preserves the live task table. -/
theorem mixLoop_tasks :
    ∀ (fuel spt len : Nat) (g : GameState) (p : GameState × List Int),
      mixLoop fuel spt len g = some p → p.1.vm.tasks = g.vm.tasks := by
  intro fuel
  induction fuel with
  | zero => intro spt len g p h; exact Option.noConfusion h
  | succ fuel ih =>
      intro spt len g p h
      unfold mixLoop at h
      split at h
      · injection h with h
        subst h
        rfl
      · split at h
        · exact Option.noConfusion h
        · rename_i gm hgm
          have tgm : gm.vm.tasks = g.vm.tasks := by
            split at hgm
            · rw [Option.map_eq_some'] at hgm
              obtain ⟨ga, hga, hf⟩ := hgm
              subst hf
              exact process_events_tasks g ga hga
            · injection hgm with hgm
              subst hgm
              rfl
          split at h
          · exact Option.noConfusion h
          · rename_i g1 frames h1
            split at h
            · exact Option.noConfusion h
            · rename_i g2 rest h2
              injection h with h
              subst h
              have t2 := ih _ _ _ (g2, rest) h2
              have t1 : g1.vm.tasks = gm.vm.tasks := mixFrames_tasks _ gm (g1, frames) h1
              exact t2.trans (t1.trans tgm)

/-- `mix_samples` preserves the live task table. -/
theorem mix_samples_tasks (g : GameState) (out : List Int) (p : GameState × List Int)
    (h : mix_samples g out = some p) : p.1.vm.tasks = g.vm.tasks := by
  unfold mix_samples at h
  split at h
  · exact Option.noConfusion h
  · split at h
    · exact Option.noConfusion h
    · split at h
      · exact Option.noConfusion h
      · rename_i g1 produced h1
        injection h with h
        subst h
        exact mixLoop_tasks _ _ _ g (g1, produced) h1

/-- `produce_music` preserves the live task table. -/
theorem produce_music_tasks (g : GameState) (g' : GameState)
    (h : produce_music g = some g') : g'.vm.tasks = g.vm.tasks := by
  unfold produce_music at h
  split at h
  · injection h with h
    subst h
    rfl
  · split at h
    · exact Option.noConfusion h
    · rename_i g1 out h1
      injection h with h
      subst h
      exact mix_samples_tasks g _ (g1, out) h1

/-- The pacing loop preserves the live task table. -/
theorem produceMusicLoop_tasks :
    ∀ (n : Nat) (g g' : GameState), produceMusicLoop n g = some g' →
      g'.vm.tasks = g.vm.tasks := by
  intro n
  induction n with
  | zero =>
      intro g g' h
      unfold produceMusicLoop at h
      injection h with h
      subst h
      rfl
  | succ n ih =>
      intro g g' h
      unfold produceMusicLoop at h
      split at h
      · exact Option.noConfusion h
      · rename_i g1 h1
        exact (ih g1 g' h).trans (produce_music_tasks g g1 h1)

/-- Presenting a frame only records a host event. -/
theorem display_surface_tasks (g : GameState) (fb : Nat) (g' : GameState)
    (h : display_surface g fb = some g') : g'.vm.tasks = g.vm.tasks := by
  unfold display_surface at h
  rw [Option.map_eq_some'] at h
  obtain ⟨px, hpx, hf⟩ := h
  subst hf
  rfl

/-- The pager loop touches only the memory arena and the video state. -/
theorem load_entries_tasks :
    ∀ (fuel : Nat) (g g' : GameState), load_entries fuel g = some g' →
      g'.vm.tasks = g.vm.tasks := by
  intro fuel
  induction fuel with
  | zero => intro g g' h; exact Option.noConfusion h
  | succ fuel ih =>
      intro g g' h
      unfold load_entries at h
      split at h
      · injection h with h
        subst h
        rfl
      · rename_i i e hpick
        split at h
        · split at h
          · exact (ih _ g' h).trans rfl
          · split at h
            · exact Option.noConfusion h
            · split at h
              · exact Option.noConfusion h
              · exact (ih _ g' h).trans rfl
        · split at h
          · split at h
            · exact (ih _ g' h).trans rfl
            · split at h
              · exact Option.noConfusion h
              · exact (ih _ g' h).trans rfl
          · exact Option.noConfusion h

/-- `load_entry` preserves the live task table. -/
theorem load_entry_tasks (g : GameState) (num : Nat) (g' : GameState)
    (h : load_entry g num = some g') : g'.vm.tasks = g.vm.tasks := by
  unfold load_entry at h
  split at h
  · exact Option.noConfusion h
  · split at h
    · exact (load_entries_tasks _ _ g' h).trans rfl
    · injection h with h
      subst h
      rfl

/-- The vertex-reading loop only moves the video data counter. -/
theorem fillPolyVerts_tasks (x1 y1 : Int) (zoom : Nat) :
    ∀ (n : Nat) (g : GameState) (acc : List Vertex) (p : List Vertex × GameState),
      fillPolyVerts x1 y1 zoom n g acc = some p → p.2.vm.tasks = g.vm.tasks := by
  intro n
  induction n with
  | zero =>
      intro g acc p h
      unfold fillPolyVerts at h
      injection h with h
      subst h
      rfl
  | succ n ih =>
      intro g acc p h
      unfold fillPolyVerts at h
      split at h
      · exact Option.noConfusion h
      · split at h
        · exact Option.noConfusion h
        · rename_i dx g1 h1
          split at h
          · exact Option.noConfusion h
          · rename_i dy g2 h2
            have t3 := ih g2 _ p h
            have t2 : g2.vm.tasks = g1.vm.tasks := fetch_dim_tasks g1 zoom (dy, g2) h2
            have t1 : g1.vm.tasks = g.vm.tasks := fetch_dim_tasks g zoom (dx, g1) h1
            exact t3.trans (t2.trans t1)

/-- The polygon-filling tail touches only the video state. -/
theorem fillPolyClipped_tasks (g : GameState) (x y bbw bbh : Int) (zoom color : Nat)
    (x1 x2 y1 y2 : Int) (g' : GameState)
    (h : fillPolyClipped g x y bbw bbh zoom color x1 x2 y1 y2 = some g') :
    g'.vm.tasks = g.vm.tasks := by
  unfold fillPolyClipped at h
  split at h
  · injection h with h
    subst h
    rfl
  · split at h
    · exact Option.noConfusion h
    · rename_i num g1 h1
      have t1 : g1.vm.tasks = g.vm.tasks := vfetch_u8_tasks g (num, g1) h1
      split at h
      · injection h with h
        subst h
        exact t1
      · split at h
        · exact Option.noConfusion h
        · rename_i vs g2 h2
          have t2 : g2.vm.tasks = g1.vm.tasks := fillPolyVerts_tasks x1 y1 zoom num g1 [] (vs, g2) h2
          split at h
          · split at h
            · exact Option.noConfusion h
            · injection h with h
              subst h
              exact t2.trans t1
          · split at h
            · exact Option.noConfusion h
            · injection h with h
              subst h
              exact t2.trans t1

/-- `fill_polygon` touches only the video state. -/
theorem fill_polygon_tasks (g : GameState) (x y : Int) (zoom color : Nat) (g' : GameState)
    (h : fill_polygon g x y zoom color = some g') : g'.vm.tasks = g.vm.tasks := by
  unfold fill_polygon at h
  split at h
  · exact Option.noConfusion h
  · rename_i bbw g1 h1
    split at h
    · exact Option.noConfusion h
    · rename_i bbh g2 h2
      split at h
      · have t3 := fillPolyClipped_tasks g2 x y bbw bbh zoom color _ _ _ _ g' h
        have t2 : g2.vm.tasks = g1.vm.tasks := fetch_dim_tasks g1 zoom (bbh, g2) h2
        have t1 : g1.vm.tasks = g.vm.tasks := fetch_dim_tasks g zoom (bbw, g1) h1
        exact t3.trans (t2.trans t1)
      · exact Option.noConfusion h

/-- The part-color fetch only moves the video data counter. -/
theorem partColorFetch_tasks (offset : Nat) (g : GameState) (p : Nat × GameState)
    (h : partColorFetch offset g = some p) : p.2.vm.tasks = g.vm.tasks := by
  unfold partColorFetch at h
  split at h
  · split at h
    · exact Option.noConfusion h
    · rename_i hi g1 h1
      split at h
      · exact Option.noConfusion h
      · rename_i b2 g2 h2
        injection h with h
        subst h
        exact (vfetch_u8_tasks g1 (b2, g2) h2).trans (vfetch_u8_tasks g (hi, g1) h1)
  · injection h with h
    subst h
    rfl

/-- Shape drawing touches only the video state. -/
theorem drawShapeGo_tasks :
    ∀ (fuel : Nat) (job : DrawJob) (g g' : GameState),
      drawShapeGo fuel job g = some g' → g'.vm.tasks = g.vm.tasks := by
  intro fuel
  induction fuel with
  | zero => intro job g g' h; exact Option.noConfusion h
  | succ fuel ih =>
      intro job g g' h
      cases job with
      | shape x y zoom color =>
          unfold drawShapeGo at h
          split at h
          · exact Option.noConfusion h
          · rename_i i g1 h1
            have t1 : g1.vm.tasks = g.vm.tasks := vfetch_u8_tasks g (i, g1) h1
            split at h
            · split at h
              · exact Option.noConfusion h
              · rename_i g2 h2
                injection h with h
                subst h
                exact (fill_polygon_tasks g1 x y zoom _ g2 h2).trans t1
            · split at h
              · exact (ih _ g1 g' h).trans t1
              · injection h with h
                subst h
                exact t1
      | parts x y zoom =>
          unfold drawShapeGo at h
          split at h
          · exact Option.noConfusion h
          · rename_i dx g1 h1
            split at h
            · exact Option.noConfusion h
            · rename_i dy g2 h2
              split at h
              · exact Option.noConfusion h
              · rename_i n g3 h3
                have t3 : g3.vm.tasks = g2.vm.tasks := vfetch_u8_tasks g2 (n, g3) h3
                have t2 : g2.vm.tasks = g1.vm.tasks := fetch_dim_tasks g1 zoom (dy, g2) h2
                have t1 : g1.vm.tasks = g.vm.tasks := fetch_dim_tasks g zoom (dx, g1) h1
                exact (ih _ g3 g' h).trans (t3.trans (t2.trans t1))
      | children x y zoom n =>
          cases n with
          | zero =>
              unfold drawShapeGo at h
              injection h with h
              subst h
              rfl
          | succ n =>
              unfold drawShapeGo at h
              split at h
              · exact Option.noConfusion h
              · rename_i offset g1 h1
                split at h
                · exact Option.noConfusion h
                · rename_i dx g2 h2
                  split at h
                  · exact Option.noConfusion h
                  · rename_i dy g3 h3
                    split at h
                    · exact Option.noConfusion h
                    · rename_i color g4 h4
                      split at h
                      · exact Option.noConfusion h
                      · rename_i g5 h5
                        have t6 := ih (DrawJob.children x y zoom n) _ g' h
                        have t5 := ih _ _ g5 h5
                        have t4 : g4.vm.tasks = g3.vm.tasks :=
                          partColorFetch_tasks offset g3 (color, g4) h4
                        have t3 : g3.vm.tasks = g2.vm.tasks := fetch_dim_tasks g2 zoom (dy, g3) h3
                        have t2 : g2.vm.tasks = g1.vm.tasks := fetch_dim_tasks g1 zoom (dx, g2) h2
                        have t1 : g1.vm.tasks = g.vm.tasks := vfetch_u16_tasks g (offset, g1) h1
                        exact t6.trans (t5.trans (t4.trans (t3.trans (t2.trans t1))))

/-- `draw_shape` touches only the video state. -/
theorem draw_shape_tasks (fuel : Nat) (g : GameState) (x y : Int) (zoom color : Nat)
    (g' : GameState) (h : draw_shape fuel g x y zoom color = some g') :
    g'.vm.tasks = g.vm.tasks :=
  drawShapeGo_tasks fuel (DrawJob.shape x y zoom color) g g' h

/-- Register-move opcodes preserve the live task table. -/
theorem op_mov_const_tasks (g g' : GameState) (h : op_mov_const g = some g') :
    g'.vm.tasks = g.vm.tasks := by
  unfold op_mov_const at h
  split at h
  · exact Option.noConfusion h
  · rename_i dst g1 h1
    split at h
    · exact Option.noConfusion h
    · rename_i v g2 h2
      injection h with h
      subst h
      exact (sfetch_i16_tasks g1 (v, g2) h2).trans (sfetch_u8_tasks g (dst, g1) h1)

/-- `op_mov` preserves the live task table. -/
theorem op_mov_tasks (g g' : GameState) (h : op_mov g = some g') :
    g'.vm.tasks = g.vm.tasks := by
  unfold op_mov at h
  split at h
  · exact Option.noConfusion h
  · rename_i dst g1 h1
    split at h
    · exact Option.noConfusion h
    · rename_i src g2 h2
      injection h with h
      subst h
      exact (sfetch_u8_tasks g1 (src, g2) h2).trans (sfetch_u8_tasks g (dst, g1) h1)

/-- `op_add` preserves the live task table. -/
theorem op_add_tasks (g g' : GameState) (h : op_add g = some g') :
    g'.vm.tasks = g.vm.tasks := by
  unfold op_add at h
  split at h
  · exact Option.noConfusion h
  · rename_i dst g1 h1
    split at h
    · exact Option.noConfusion h
    · rename_i src g2 h2
      injection h with h
      subst h
      exact (sfetch_u8_tasks g1 (src, g2) h2).trans (sfetch_u8_tasks g (dst, g1) h1)

/-- The gun-sound quirk preserves the live task table. -/
theorem gunQuirk_tasks (g g' : GameState) (h : gunQuirk g = some g') :
    g'.vm.tasks = g.vm.tasks := by
  unfold gunQuirk at h
  split at h
  · exact play_sound_shim_tasks g 0x5B 1 64 1 g' h
  · injection h with h
    subst h
    rfl

/-- `op_add_const` preserves the live task table. -/
theorem op_add_const_tasks (g g' : GameState) (h : op_add_const g = some g') :
    g'.vm.tasks = g.vm.tasks := by
  unfold op_add_const at h
  split at h
  · exact Option.noConfusion h
  · rename_i g0 h0
    split at h
    · exact Option.noConfusion h
    · rename_i dst g1 h1
      split at h
      · exact Option.noConfusion h
      · rename_i v g2 h2
        injection h with h
        subst h
        exact ((sfetch_i16_tasks g1 (v, g2) h2).trans (sfetch_u8_tasks g0 (dst, g1) h1)).trans
          (gunQuirk_tasks g g0 h0)

/-- `op_sub` preserves the live task table. -/
theorem op_sub_tasks (g g' : GameState) (h : op_sub g = some g') :
    g'.vm.tasks = g.vm.tasks := by
  unfold op_sub at h
  split at h
  · exact Option.noConfusion h
  · rename_i dst g1 h1
    split at h
    · exact Option.noConfusion h
    · rename_i src g2 h2
      injection h with h
      subst h
      exact (sfetch_u8_tasks g1 (src, g2) h2).trans (sfetch_u8_tasks g (dst, g1) h1)

/-- `op_and_const` preserves the live task table. -/
theorem op_and_const_tasks (g g' : GameState) (h : op_and_const g = some g') :
    g'.vm.tasks = g.vm.tasks := by
  unfold op_and_const at h
  split at h
  · exact Option.noConfusion h
  · rename_i dst g1 h1
    split at h
    · exact Option.noConfusion h
    · rename_i v g2 h2
      injection h with h
      subst h
      exact (sfetch_i16_tasks g1 (v, g2) h2).trans (sfetch_u8_tasks g (dst, g1) h1)

/-- `op_or_const` preserves the live task table. -/
theorem op_or_const_tasks (g g' : GameState) (h : op_or_const g = some g') :
    g'.vm.tasks = g.vm.tasks := by
  unfold op_or_const at h
  split at h
  · exact Option.noConfusion h
  · rename_i dst g1 h1
    split at h
    · exact Option.noConfusion h
    · rename_i v g2 h2
      injection h with h
      subst h
      exact (sfetch_i16_tasks g1 (v, g2) h2).trans (sfetch_u8_tasks g (dst, g1) h1)

/-- `op_shl_const` preserves the live task table. -/
theorem op_shl_const_tasks (g g' : GameState) (h : op_shl_const g = some g') :
    g'.vm.tasks = g.vm.tasks := by
  unfold op_shl_const at h
  split at h
  · exact Option.noConfusion h
  · rename_i dst g1 h1
    split at h
    · exact Option.noConfusion h
    · rename_i v g2 h2
      injection h with h
      subst h
      exact (sfetch_i16_tasks g1 (v, g2) h2).trans (sfetch_u8_tasks g (dst, g1) h1)

/-- `op_shr_const` preserves the live task table. -/
theorem op_shr_const_tasks (g g' : GameState) (h : op_shr_const g = some g') :
    g'.vm.tasks = g.vm.tasks := by
  unfold op_shr_const at h
  split at h
  · exact Option.noConfusion h
  · rename_i dst g1 h1
    split at h
    · exact Option.noConfusion h
    · rename_i v g2 h2
      injection h with h
      subst h
      exact (sfetch_u16_tasks g1 (v, g2) h2).trans (sfetch_u8_tasks g (dst, g1) h1)

/-- `op_call` preserves the live task table. -/
theorem op_call_tasks (g g' : GameState) (h : op_call g = some g') :
    g'.vm.tasks = g.vm.tasks := by
  unfold op_call at h
  split at h
  · split at h
    · exact Option.noConfusion h
    · rename_i new_pc g1 h1
      injection h with h
      subst h
      exact sfetch_u16_tasks g (new_pc, g1) h1
  · exact Option.noConfusion h

/-- `op_ret` preserves the live task table. -/
theorem op_ret_tasks (g g' : GameState) (h : op_ret g = some g') :
    g'.vm.tasks = g.vm.tasks := by
  unfold op_ret at h
  split at h
  · injection h with h
    subst h
    rfl
  · exact Option.noConfusion h

/-- `op_jmp` preserves the live task table. -/
theorem op_jmp_tasks (g g' : GameState) (h : op_jmp g = some g') :
    g'.vm.tasks = g.vm.tasks := by
  unfold op_jmp at h
  split at h
  · exact Option.noConfusion h
  · rename_i new_pc g1 h1
    injection h with h
    subst h
    exact sfetch_u16_tasks g (new_pc, g1) h1

/-- `op_jmp_if_var` preserves the live task table. -/
theorem op_jmp_if_var_tasks (g g' : GameState) (h : op_jmp_if_var g = some g') :
    g'.vm.tasks = g.vm.tasks := by
  unfold op_jmp_if_var at h
  split at h
  · exact Option.noConfusion h
  · rename_i i g1 h1
    split at h
    · exact Option.noConfusion h
    · rename_i new_pc g2 h2
      have t := (sfetch_u16_tasks g1 (new_pc, g2) h2).trans (sfetch_u8_tasks g (i, g1) h1)
      split at h
      · injection h with h
        subst h
        exact t
      · injection h with h
        subst h
        exact t

/-- The conditional-jump argument fetch only moves the program counter. -/
theorem condArgFetch_tasks (op : Nat) (g : GameState) (p : Int × GameState)
    (h : condArgFetch op g = some p) : p.2.vm.tasks = g.vm.tasks := by
  unfold condArgFetch at h
  split at h
  · split at h
    · exact Option.noConfusion h
    · rename_i i g1 h1
      injection h with h
      subst h
      exact sfetch_u8_tasks g (i, g1) h1
  · split at h
    · exact sfetch_i16_tasks g p h
    · split at h
      · exact Option.noConfusion h
      · rename_i b g1 h1
        injection h with h
        subst h
        exact sfetch_u8_tasks g (b, g1) h1

/-- The palette fixup preserves the live task table. -/
theorem fixup_pal_tasks (g : GameState) (screen : Int) (g' : GameState)
    (h : fixup_pal_after_change_screen g screen = some g') : g'.vm.tasks = g.vm.tasks := by
  unfold fixup_pal_after_change_screen at h
  split at h
  · exact load_pal_mem_tasks g 8 g' h
  · split at h
    · exact load_pal_mem_tasks g 1 g' h
    · injection h with h
      subst h
      rfl

/-- The taken-jump tail preserves the live task table. -/
theorem condJmpTaken_tasks (g : GameState) (var_id : Nat) (var : Int) (g' : GameState)
    (h : condJmpTaken g var_id var = some g') : g'.vm.tasks = g.vm.tasks := by
  unfold condJmpTaken at h
  split at h
  · have t := fixup_pal_tasks _ var g' h
    exact t
  · injection h with h
    subst h
    rfl

/-- Branch resolution preserves the live task table. -/
theorem condJmpApply_tasks (g : GameState) (var_id : Nat) (var : Int) (test : Bool)
    (new_pc : Nat) (g' : GameState) (h : condJmpApply g var_id var test new_pc = some g') :
    g'.vm.tasks = g.vm.tasks := by
  unfold condJmpApply at h
  split at h
  · have t := condJmpTaken_tasks _ var_id var g' h
    exact t
  · injection h with h
    subst h
    rfl

/-- Comparison and protection bypass preserve the live task table. -/
theorem condJmpFinish_tasks (g : GameState) (op var_id : Nat) (var arg : Int)
    (new_pc : Nat) (g' : GameState) (h : condJmpFinish g op var_id var arg new_pc = some g') :
    g'.vm.tasks = g.vm.tasks := by
  unfold condJmpFinish at h
  split at h
  · exact Option.noConfusion h
  · rename_i test0 htest
    split at h
    · have t := condJmpApply_tasks _ var_id var true new_pc g' h
      exact t
    · exact condJmpApply_tasks g var_id var test0 new_pc g' h

/-- `op_cond_jmp` preserves the live task table. -/
theorem op_cond_jmp_tasks (g g' : GameState) (h : op_cond_jmp g = some g') :
    g'.vm.tasks = g.vm.tasks := by
  unfold op_cond_jmp at h
  split at h
  · exact Option.noConfusion h
  · rename_i op g1 h1
    split at h
    · exact Option.noConfusion h
    · rename_i var_id g2 h2
      split at h
      · exact Option.noConfusion h
      · rename_i arg g3 h3
        split at h
        · exact Option.noConfusion h
        · rename_i new_pc g4 h4
          have t5 := condJmpFinish_tasks g4 op var_id _ arg new_pc g' h
          have t4 : g4.vm.tasks = g3.vm.tasks := sfetch_u16_tasks g3 (new_pc, g4) h4
          have t3 : g3.vm.tasks = g2.vm.tasks := condArgFetch_tasks op g2 (arg, g3) h3
          have t2 : g2.vm.tasks = g1.vm.tasks := sfetch_u8_tasks g1 (var_id, g2) h2
          have t1 : g1.vm.tasks = g.vm.tasks := sfetch_u8_tasks g (op, g1) h1
          exact t5.trans (t4.trans (t3.trans (t2.trans t1)))

/-- `op_install_task` writes only a pending slot. -/
theorem op_install_task_tasks (g g' : GameState) (h : op_install_task g = some g') :
    g'.vm.tasks = g.vm.tasks := by
  unfold op_install_task at h
  split at h
  · exact Option.noConfusion h
  · rename_i id g1 h1
    split at h
    · split at h
      · exact Option.noConfusion h
      · rename_i pc g2 h2
        injection h with h
        subst h
        exact (sfetch_u16_tasks g1 (pc, g2) h2).trans (sfetch_u8_tasks g (id, g1) h1)
    · exact Option.noConfusion h

/-- `op_remove_task` preserves the live task table. -/
theorem op_remove_task_tasks (g g' : GameState) (h : op_remove_task g = some g') :
    g'.vm.tasks = g.vm.tasks := by
  unfold op_remove_task at h
  injection h with h
  subst h
  rfl

/-- `op_yield_task` preserves the live task table. -/
theorem op_yield_task_tasks (g g' : GameState) (h : op_yield_task g = some g') :
    g'.vm.tasks = g.vm.tasks := by
  unfold op_yield_task at h
  injection h with h
  subst h
  rfl

/-- `op_change_tasks` writes only pending slots. -/
theorem op_change_tasks_tasks (g g' : GameState) (h : op_change_tasks g = some g') :
    g'.vm.tasks = g.vm.tasks := by
  unfold op_change_tasks at h
  split at h
  · exact Option.noConfusion h
  · rename_i b g1 h1
    split at h
    · split at h
      · exact Option.noConfusion h
      · rename_i e0 g2 h2
        split at h
        · exact Option.noConfusion h
        · rename_i action g3 h3
          have t3 : g3.vm.tasks = g2.vm.tasks := sfetch_u8_tasks g2 (action, g3) h3
          have t2 : g2.vm.tasks = g1.vm.tasks := sfetch_u8_tasks g1 (e0, g2) h2
          have t1 : g1.vm.tasks = g.vm.tasks := sfetch_u8_tasks g (b, g1) h1
          split at h
          · injection h with h
            subst h
            exact t3.trans (t2.trans t1)
          · injection h with h
            subst h
            exact t3.trans (t2.trans t1)
    · exact Option.noConfusion h

/-- `op_select_page` preserves the live task table. -/
theorem op_select_page_tasks (g g' : GameState) (h : op_select_page g = some g') :
    g'.vm.tasks = g.vm.tasks := by
  unfold op_select_page at h
  split at h
  · exact Option.noConfusion h
  · rename_i n g1 h1
    injection h with h
    subst h
    exact sfetch_u8_tasks g (n, g1) h1

/-- `op_fill_page` preserves the live task table. -/
theorem op_fill_page_tasks (g g' : GameState) (h : op_fill_page g = some g') :
    g'.vm.tasks = g.vm.tasks := by
  unfold op_fill_page at h
  split at h
  · exact Option.noConfusion h
  · rename_i n g1 h1
    split at h
    · exact Option.noConfusion h
    · rename_i color g2 h2
      injection h with h
      subst h
      exact (sfetch_u8_tasks g1 (color, g2) h2).trans (sfetch_u8_tasks g (n, g1) h1)

/-- `op_copy_page` preserves the live task table. -/
theorem op_copy_page_tasks (g g' : GameState) (h : op_copy_page g = some g') :
    g'.vm.tasks = g.vm.tasks := by
  unfold op_copy_page at h
  split at h
  · exact Option.noConfusion h
  · rename_i src g1 h1
    split at h
    · exact Option.noConfusion h
    · rename_i dst g2 h2
      split at h
      · exact Option.noConfusion h
      · injection h with h
        subst h
        exact (sfetch_u8_tasks g1 (dst, g2) h2).trans (sfetch_u8_tasks g (src, g1) h1)

/-- `op_change_pal` preserves the live task table. -/
theorem op_change_pal_tasks (g g' : GameState) (h : op_change_pal g = some g') :
    g'.vm.tasks = g.vm.tasks := by
  unfold op_change_pal at h
  split at h
  · exact Option.noConfusion h
  · rename_i num g1 h1
    split at h
    · exact Option.noConfusion h
    · rename_i d g2 h2
      have t := (sfetch_u8_tasks g1 (d, g2) h2).trans (sfetch_u8_tasks g (num, g1) h1)
      split at h
      · injection h with h
        subst h
        exact t
      · injection h with h
        subst h
        exact t

/-- `op_draw_string` preserves the live task table. -/
theorem op_draw_string_tasks (g g' : GameState) (h : op_draw_string g = some g') :
    g'.vm.tasks = g.vm.tasks := by
  unfold op_draw_string at h
  split at h
  · exact Option.noConfusion h
  · rename_i str_id g1 h1
    split at h
    · exact Option.noConfusion h
    · rename_i xi g2 h2
      split at h
      · exact Option.noConfusion h
      · rename_i ypos g3 h3
        split at h
        · exact Option.noConfusion h
        · rename_i color g4 h4
          split at h
          · exact Option.noConfusion h
          · injection h with h
            subst h
            have t4 : g4.vm.tasks = g3.vm.tasks := sfetch_u8_tasks g3 (color, g4) h4
            have t3 : g3.vm.tasks = g2.vm.tasks := sfetch_u8_tasks g2 (ypos, g3) h3
            have t2 : g2.vm.tasks = g1.vm.tasks := sfetch_u8_tasks g1 (xi, g2) h2
            have t1 : g1.vm.tasks = g.vm.tasks := sfetch_u16_tasks g (str_id, g1) h1
            exact t4.trans (t3.trans (t2.trans t1))

/-- `op_play_sound` preserves the live task table. -/
theorem op_play_sound_tasks (g g' : GameState) (h : op_play_sound g = some g') :
    g'.vm.tasks = g.vm.tasks := by
  unfold op_play_sound at h
  split at h
  · exact Option.noConfusion h
  · rename_i resource g1 h1
    split at h
    · exact Option.noConfusion h
    · rename_i freq g2 h2
      split at h
      · exact Option.noConfusion h
      · rename_i volume g3 h3
        split at h
        · exact Option.noConfusion h
        · rename_i channel g4 h4
          have t5 := play_sound_shim_tasks g4 resource freq volume channel g' h
          have t4 : g4.vm.tasks = g3.vm.tasks := sfetch_u8_tasks g3 (channel, g4) h4
          have t3 : g3.vm.tasks = g2.vm.tasks := sfetch_u8_tasks g2 (volume, g3) h3
          have t2 : g2.vm.tasks = g1.vm.tasks := sfetch_u8_tasks g1 (freq, g2) h2
          have t1 : g1.vm.tasks = g.vm.tasks := sfetch_u16_tasks g (resource, g1) h1
          exact t5.trans (t4.trans (t3.trans (t2.trans t1)))

/-- `op_play_music` preserves the live task table. -/
theorem op_play_music_tasks (g g' : GameState) (h : op_play_music g = some g') :
    g'.vm.tasks = g.vm.tasks := by
  unfold op_play_music at h
  split at h
  · exact Option.noConfusion h
  · rename_i resource g1 h1
    split at h
    · exact Option.noConfusion h
    · rename_i delay g2 h2
      split at h
      · exact Option.noConfusion h
      · rename_i pos g3 h3
        have t3 : g3.vm.tasks = g2.vm.tasks := sfetch_u8_tasks g2 (pos, g3) h3
        have t2 : g2.vm.tasks = g1.vm.tasks := sfetch_u16_tasks g1 (delay, g2) h2
        have t1 : g1.vm.tasks = g.vm.tasks := sfetch_u16_tasks g (resource, g1) h1
        split at h
        · exact (seek_tasks g3 resource delay pos g' h).trans (t3.trans (t2.trans t1))
        · injection h with h
          subst h
          exact t3.trans (t2.trans t1)

/-- `op_update_resources` preserves the live task table. -/
theorem op_update_resources_tasks (g g' : GameState) (h : op_update_resources g = some g') :
    g'.vm.tasks = g.vm.tasks := by
  unfold op_update_resources at h
  split at h
  · exact Option.noConfusion h
  · rename_i num g1 h1
    have t1 : g1.vm.tasks = g.vm.tasks := sfetch_u16_tasks g (num, g1) h1
    split at h
    · injection h with h
      subst h
      exact t1
    · split at h
      · injection h with h
        subst h
        exact t1
      · exact (load_entry_tasks g1 num g' h).trans t1

/-- Palette staging preserves the live task table. -/
theorem stagePal_tasks (g : GameState) (v : VideoContext) (g' : GameState)
    (h : stagePal g v = some g') : g'.vm.tasks = g.vm.tasks := by
  unfold stagePal at h
  split at h
  · rename_i num hnum
    have t := load_pal_mem_tasks _ num g' h
    exact t
  · injection h with h
    subst h
    rfl

/-- `op_update_display` preserves the live task table. -/
theorem op_update_display_tasks (g g' : GameState) (h : op_update_display g = some g') :
    g'.vm.tasks = g.vm.tasks := by
  unfold op_update_display at h
  split at h
  · exact Option.noConfusion h
  · rename_i page g1 h1
    split at h
    · exact Option.noConfusion h
    · rename_i g2 h2
      rw [Option.bind_eq_some] at h
      obtain ⟨g3, h3, hrest⟩ := h
      split at hrest
      · exact Option.noConfusion hrest
      · rename_i g4 h4
        have heq := Option.some.inj hrest
        subst heq
        have t4 : g4.vm.tasks = g3.vm.tasks := produceMusicLoop_tasks _ g3 g4 h4
        have t3 : g3.vm.tasks = g2.vm.tasks := display_surface_tasks g2 _ g3 h3
        have t2 : g2.vm.tasks = g1.vm.tasks := stagePal_tasks g1 _ g2 h2
        have t1 : g1.vm.tasks = g.vm.tasks := sfetch_u8_tasks g (page, g1) h1
        exact t4.trans (t3.trans (t2.trans t1))

/-- The x-coordinate decoding only moves the program counter. -/
theorem shapeCoordX_tasks (opcode xb : Nat) (g : GameState) (p : Int × GameState)
    (h : shapeCoordX opcode xb g = some p) : p.2.vm.tasks = g.vm.tasks := by
  unfold shapeCoordX at h
  split at h
  · split at h
    · split at h
      · exact Option.noConfusion h
      · rename_i lo g1 h1
        injection h with h
        subst h
        exact sfetch_u8_tasks g (lo, g1) h1
    · injection h with h
      subst h
      rfl
  · injection h with h
    subst h
    rfl

/-- The y-coordinate decoding only moves the program counter. -/
theorem shapeCoordY_tasks (opcode yb : Nat) (g : GameState) (p : Int × GameState)
    (h : shapeCoordY opcode yb g = some p) : p.2.vm.tasks = g.vm.tasks := by
  unfold shapeCoordY at h
  split at h
  · split at h
    · split at h
      · exact Option.noConfusion h
      · rename_i lo g1 h1
        injection h with h
        subst h
        exact sfetch_u8_tasks g (lo, g1) h1
    · injection h with h
      subst h
      rfl
  · injection h with h
    subst h
    rfl

/-- The short draw form preserves the live task table. -/
theorem drawShapeHi_tasks (fuel offset xb yb : Nat) (g g' : GameState)
    (h : drawShapeHi fuel offset xb yb g = some g') : g'.vm.tasks = g.vm.tasks := by
  unfold drawShapeHi at h
  have t := draw_shape_tasks fuel _ _ _ _ _ g' h
  exact t

/-- The long draw form tail preserves the live task table. -/
theorem drawShapeLoFin_tasks (fuel offset : Nat) (u : Bool) (x y : Int) (zoom : Nat)
    (g g' : GameState) (h : drawShapeLoFin fuel offset u x y zoom g = some g') :
    g'.vm.tasks = g.vm.tasks := by
  unfold drawShapeLoFin at h
  have t := draw_shape_tasks fuel _ _ _ _ _ g' h
  exact t

/-- `op_draw_shape` preserves the live task table. -/
theorem op_draw_shape_tasks (fuel opcode : Nat) (g g' : GameState)
    (h : op_draw_shape fuel opcode g = some g') : g'.vm.tasks = g.vm.tasks := by
  unfold op_draw_shape at h
  split at h
  · split at h
    · exact Option.noConfusion h
    · rename_i b g1 h1
      split at h
      · exact Option.noConfusion h
      · rename_i xb g2 h2
        split at h
        · exact Option.noConfusion h
        · rename_i yb g3 h3
          have t4 := drawShapeHi_tasks fuel _ xb yb g3 g' h
          have t3 : g3.vm.tasks = g2.vm.tasks := sfetch_u8_tasks g2 (yb, g3) h3
          have t2 : g2.vm.tasks = g1.vm.tasks := sfetch_u8_tasks g1 (xb, g2) h2
          have t1 : g1.vm.tasks = g.vm.tasks := sfetch_u8_tasks g (b, g1) h1
          exact t4.trans (t3.trans (t2.trans t1))
  · split at h
    · exact Option.noConfusion h
    · rename_i w g1 h1
      split at h
      · exact Option.noConfusion h
      · rename_i xb g2 h2
        split at h
        · exact Option.noConfusion h
        · rename_i x g3 h3
          split at h
          · exact Option.noConfusion h
          · rename_i yb g4 h4
            split at h
            · exact Option.noConfusion h
            · rename_i y g5 h5
              split at h
              · exact Option.noConfusion h
              · rename_i zb g6 h6
                have t6 : g6.vm.tasks = g5.vm.tasks := sfetch_u8_tasks g5 (zb, g6) h6
                have t5 : g5.vm.tasks = g4.vm.tasks := shapeCoordY_tasks opcode yb g4 (y, g5) h5
                have t4 : g4.vm.tasks = g3.vm.tasks := sfetch_u8_tasks g3 (yb, g4) h4
                have t3 : g3.vm.tasks = g2.vm.tasks := shapeCoordX_tasks opcode xb g2 (x, g3) h3
                have t2 : g2.vm.tasks = g1.vm.tasks := sfetch_u8_tasks g1 (xb, g2) h2
                have t1 : g1.vm.tasks = g.vm.tasks := sfetch_u16_tasks g (w, g1) h1
                have tall := ((((t6.trans t5).trans t4).trans t3).trans t2).trans t1
                split at h
                · split at h
                  · exact (drawShapeLoFin_tasks fuel _ false x y 0x40 _ g' h).trans tall
                  · exact (drawShapeLoFin_tasks fuel _ false x y _ g6 g' h).trans tall
                · split at h
                  · exact (drawShapeLoFin_tasks fuel _ true x y 0x40 _ g' h).trans tall
                  · exact (drawShapeLoFin_tasks fuel _ false x y zb g6 g' h).trans tall

/-- Opcode dispatch preserves the live task table: no opcode writes it. -/
theorem dispatchOp_tasks (fuel opcode : Nat) (g g' : GameState)
    (h : dispatchOp fuel opcode g = some g') : g'.vm.tasks = g.vm.tasks := by
  unfold dispatchOp at h
  by_cases c0 : opcode &&& 0xC0 ≠ 0
  · rw [if_pos c0] at h
    exact op_draw_shape_tasks fuel opcode g g' h
  · rw [if_neg c0] at h
    by_cases c1 : opcode = 0x00
    · rw [if_pos c1] at h
      exact op_mov_const_tasks g g' h
    · rw [if_neg c1] at h
      by_cases c2 : opcode = 0x01
      · rw [if_pos c2] at h
        exact op_mov_tasks g g' h
      · rw [if_neg c2] at h
        by_cases c3 : opcode = 0x02
        · rw [if_pos c3] at h
          exact op_add_tasks g g' h
        · rw [if_neg c3] at h
          by_cases c4 : opcode = 0x03
          · rw [if_pos c4] at h
            exact op_add_const_tasks g g' h
          · rw [if_neg c4] at h
            by_cases c5 : opcode = 0x04
            · rw [if_pos c5] at h
              exact op_call_tasks g g' h
            · rw [if_neg c5] at h
              by_cases c6 : opcode = 0x05
              · rw [if_pos c6] at h
                exact op_ret_tasks g g' h
              · rw [if_neg c6] at h
                by_cases c7 : opcode = 0x06
                · rw [if_pos c7] at h
                  exact op_yield_task_tasks g g' h
                · rw [if_neg c7] at h
                  by_cases c8 : opcode = 0x07
                  · rw [if_pos c8] at h
                    exact op_jmp_tasks g g' h
                  · rw [if_neg c8] at h
                    by_cases c9 : opcode = 0x08
                    · rw [if_pos c9] at h
                      exact op_install_task_tasks g g' h
                    · rw [if_neg c9] at h
                      by_cases c10 : opcode = 0x09
                      · rw [if_pos c10] at h
                        exact op_jmp_if_var_tasks g g' h
                      · rw [if_neg c10] at h
                        by_cases c11 : opcode = 0x0A
                        · rw [if_pos c11] at h
                          exact op_cond_jmp_tasks g g' h
                        · rw [if_neg c11] at h
                          by_cases c12 : opcode = 0x0B
                          · rw [if_pos c12] at h
                            exact op_change_pal_tasks g g' h
                          · rw [if_neg c12] at h
                            by_cases c13 : opcode = 0x0C
                            · rw [if_pos c13] at h
                              exact op_change_tasks_tasks g g' h
                            · rw [if_neg c13] at h
                              by_cases c14 : opcode = 0x0D
                              · rw [if_pos c14] at h
                                exact op_select_page_tasks g g' h
                              · rw [if_neg c14] at h
                                by_cases c15 : opcode = 0x0E
                                · rw [if_pos c15] at h
                                  exact op_fill_page_tasks g g' h
                                · rw [if_neg c15] at h
                                  by_cases c16 : opcode = 0x0F
                                  · rw [if_pos c16] at h
                                    exact op_copy_page_tasks g g' h
                                  · rw [if_neg c16] at h
                                    by_cases c17 : opcode = 0x10
                                    · rw [if_pos c17] at h
                                      exact op_update_display_tasks g g' h
                                    · rw [if_neg c17] at h
                                      by_cases c18 : opcode = 0x11
                                      · rw [if_pos c18] at h
                                        exact op_remove_task_tasks g g' h
                                      · rw [if_neg c18] at h
                                        by_cases c19 : opcode = 0x12
                                        · rw [if_pos c19] at h
                                          exact op_draw_string_tasks g g' h
                                        · rw [if_neg c19] at h
                                          by_cases c20 : opcode = 0x13
                                          · rw [if_pos c20] at h
                                            exact op_sub_tasks g g' h
                                          · rw [if_neg c20] at h
                                            by_cases c21 : opcode = 0x14
                                            · rw [if_pos c21] at h
                                              exact op_and_const_tasks g g' h
                                            · rw [if_neg c21] at h
                                              by_cases c22 : opcode = 0x15
                                              · rw [if_pos c22] at h
                                                exact op_or_const_tasks g g' h
                                              · rw [if_neg c22] at h
                                                by_cases c23 : opcode = 0x16
                                                · rw [if_pos c23] at h
                                                  exact op_shl_const_tasks g g' h
                                                · rw [if_neg c23] at h
                                                  by_cases c24 : opcode = 0x17
                                                  · rw [if_pos c24] at h
                                                    exact op_shr_const_tasks g g' h
                                                  · rw [if_neg c24] at h
                                                    by_cases c25 : opcode = 0x18
                                                    · rw [if_pos c25] at h
                                                      exact op_play_sound_tasks g g' h
                                                    · rw [if_neg c25] at h
                                                      by_cases c26 : opcode = 0x19
                                                      · rw [if_pos c26] at h
                                                        exact op_update_resources_tasks g g' h
                                                      · rw [if_neg c26] at h
                                                        by_cases c27 : opcode = 0x1A
                                                        · rw [if_pos c27] at h
                                                          exact op_play_music_tasks g g' h
                                                        · rw [if_neg c27] at h
                                                          exact Option.noConfusion h

/-- `execute_task` never writes the live task table. -/
theorem executeTask_tasks :
    ∀ (fuel : Nat) (g g' : GameState), executeTask fuel g = some g' →
      g'.vm.tasks = g.vm.tasks := by
  intro fuel
  induction fuel with
  | zero => intro g g' h; exact Option.noConfusion h
  | succ fuel ih =>
      intro g g' h
      unfold executeTask at h
      split at h
      · have heq := Option.some.inj h
        subst heq
        rfl
      · split at h
        · exact Option.noConfusion h
        · rename_i opcode g1 h1
          split at h
          · exact Option.noConfusion h
          · rename_i g2 h2
            exact (ih g2 g' h).trans ((dispatchOp_tasks fuel opcode g1 g2 h2).trans
              (sfetch_u8_tasks g (opcode, g1) h1))

/-- The generalized loop invariant behind the run-tasks claim: every id in
the executed trace lies at or beyond the loop cursor and named, in the
state the loop started from, a live unfrozen slot. -/
theorem runTasksGo_mem (efuel : Nat) :
    ∀ (n id0 : Nat) (g : GameState) (id : Nat),
      id ∈ (runTasksGo efuel id0 n g).1 →
      id0 ≤ id ∧ (g.vm.tasks id).pc ≠ HALT_PC ∧ (g.vm.tasks id).frozen = false := by
  intro n
  induction n with
  | zero =>
      intro id0 g id h
      have hx : id ∈ ([] : List Nat) := h
      exact absurd hx (List.not_mem_nil id)
  | succ n ih =>
      intro id0 g id h
      unfold runTasksGo at h
      split at h
      · rename_i hskip
        have hx := ih (id0 + 1) g id h
        exact ⟨by omega, hx.2.1, hx.2.2⟩
      · rename_i hrun
        have hpc0 : (g.vm.tasks id0).pc ≠ HALT_PC := fun hp => hrun (Or.inl hp)
        have hfz0 : (g.vm.tasks id0).frozen = false := by
          cases hfb : (g.vm.tasks id0).frozen
          · rfl
          · exact absurd (Or.inr hfb) hrun
        split at h
        · rename_i hexec
          have hid : id = id0 := by
            have hx : id ∈ [id0] := h
            simpa using hx
          subst hid
          exact ⟨le_refl id, hpc0, hfz0⟩
        · rename_i g1 hexec
          have hx : id ∈ id0 :: (runTasksGo efuel (id0 + 1) n (taskWriteback g1 id0)).1 := h
          rcases List.mem_cons.mp hx with hid | htail
          · subst hid
            exact ⟨le_refl id, hpc0, hfz0⟩
          · have hy := ih (id0 + 1) (taskWriteback g1 id0) id htail
            have hne : id ≠ id0 := by omega
            have hw : (taskWriteback g1 id0).vm.tasks id = g1.vm.tasks id := by
              show (if id = id0 then { g1.vm.tasks id with pc := g1.vm.pc }
                else g1.vm.tasks id) = g1.vm.tasks id
              rw [if_neg hne]
            have hg1 : g1.vm.tasks = g.vm.tasks :=
              executeTask_tasks efuel (taskDispatch g id0) g1 hexec
            have hpc := hy.2.1
            have hfz := hy.2.2
            rw [hw, hg1] at hpc hfz
            exact ⟨by omega, hpc, hfz⟩

/-- C7: Every call of run_tasks executes only tasks whose live pc is not
0xFFFF and whose frozen flag is clear: a task with pc == 0xFFFF (or a
frozen task) is never executed — formally, every task id in the executed
trace of `run_tasks` named, in the entry state, a live slot whose pc is
not `HALT_PC` and whose frozen flag is `false`. -/
theorem run_tasks_only_live_unfrozen (efuel : Nat) (g : GameState) (id : Nat)
    (h : id ∈ (run_tasks efuel g).1) :
    (g.vm.tasks id).pc ≠ HALT_PC ∧ (g.vm.tasks id).frozen = false :=
  (runTasksGo_mem efuel 64 0 g id h).2

/-- Witness for the run-tasks claim: on the fixture, task 0 is executed
(the trace is exactly `[0]`) and indeed its slot was live and unfrozen. -/
theorem run_tasks_only_live_unfrozen_witness :
    0 ∈ (run_tasks 2 gC7).1 ∧
      ((gC7.vm.tasks 0).pc ≠ HALT_PC ∧ (gC7.vm.tasks 0).frozen = false) := by
  have hmem : 0 ∈ (run_tasks 2 gC7).1 := by
    rw [show (run_tasks 2 gC7).1 = [0] from rfl]
    exact List.mem_singleton.mpr rfl
  exact ⟨hmem, run_tasks_only_live_unfrozen 2 gC7 0 hmem⟩

/-- C8: When op_change_tasks decodes operands with begin > end (after
masking the end byte with 0x3F), it logs a warning and is a no-op: no
pending task's pc or frozen flag is changed — the whole instruction reduces
to advancing the program counter past its three operand bytes, leaving
every other component of the game state (in particular the pending task
table and the live task table) exactly as it was. -/
theorem op_change_tasks_invalid_range_noop (g : GameState) (b e a : Nat)
    (hpc : g.vm.pc + 3 < 65536)
    (h1 : g.mem.data[g.mem.seg_code + g.vm.pc]? = some b)
    (h2 : g.mem.data[g.mem.seg_code + (g.vm.pc + 1)]? = some e)
    (h3 : g.mem.data[g.mem.seg_code + (g.vm.pc + 2)]? = some a)
    (hb : b < 64)
    (hrange : e &&& 0x3F < b) :
    op_change_tasks g = some { g with vm := { g.vm with pc := g.vm.pc + 3 } } := by
  unfold op_change_tasks
  unfold sfetch_u8
  rw [h1]
  dsimp only []
  rw [if_pos hb]
  rw [show (g.vm.pc + 1) % 65536 = g.vm.pc + 1 from Nat.mod_eq_of_lt (by omega)]
  rw [h2]
  dsimp only []
  rw [show (g.vm.pc + 1 + 1) % 65536 = g.vm.pc + 2 from Nat.mod_eq_of_lt (by omega)]
  rw [h3]
  dsimp only []
  rw [if_pos hrange]
  rw [show (g.vm.pc + 2 + 1) % 65536 = g.vm.pc + 3 from Nat.mod_eq_of_lt (by omega)]

/-- Witness for the change-tasks claim: on the fixture (operand bytes 5,
0x41 and 2, so begin 5 and masked end 1) the instruction only advances the
program counter by three. -/
theorem op_change_tasks_invalid_range_noop_witness :
    op_change_tasks gC8 = some { gC8 with vm := { gC8.vm with pc := gC8.vm.pc + 3 } } :=
  op_change_tasks_invalid_range_noop gC8 5 0x41 2 (by decide) rfl rfl rfl (by decide)
    (by decide)
